import Mathlib

/-!
Shallow embedding of `scripts/generate_logs.py`, a generator of newline-delimited
JSON log records, together with proofs of the specification's claims about it.

Modelling conventions:

* Python's `random` module is modelled by an infinite stream of raw natural-number
  draws (`Rng`).  Each call of a `random.*` primitive consumes exactly one raw draw
  and maps it into the requested range, so every value the primitives can return in
  Python is reachable in the model and vice versa:
  `random.randint(a, b)` becomes `a + raw % (b - a + 1)` (always in `[a, b]`),
  `random.choice(xs)` becomes `xs[raw % len xs]`,
  `random.choices(xs, weights)[0]` walks the cumulative integer weights (the
  source's float weights `0.3/0.5/0.15/0.05` and `0.6/0.2/0.1/0.05/0.05` are scaled
  by 100 to the integers used here), and `random.random()` becomes
  `(raw % 1000) / 1000 : ℚ`, a value in `[0, 1)`.
* Python `datetime` values are modelled as integer microseconds since
  2026-01-01T00:00:00; `timedelta` arithmetic on microseconds is exact in CPython,
  and `timedelta(milliseconds=f)` for a float `f` rounds `f * 1000` to a whole
  number of microseconds (ties to even), modelled by `roundHalfEven` applied to the
  exact rational.  `datetime.isoformat` is modelled for datetimes that lie in the
  year 2026, which covers every timestamp the generator can produce.
* Python floats elsewhere are modelled by exact rationals: `round(x, 2)` is
  modelled at two-decimal precision and float `repr` is modelled for two-decimal
  values; the claims do not inspect those values beyond their presence.
* `str.format` with the fixed keyword arguments of the source is modelled by
  sequential replacement of each `\x7bname\x7d` placeholder; the placeholders in the
  fixed templates are disjoint and no substituted value contains a brace, so this
  agrees with Python's simultaneous substitution.
* `json.dumps` with its default separators is modelled by `dumpEntry`.
-/

namespace LazyTailGen

/-- A source of randomness: an infinite stream of raw draws and a cursor. -/
structure Rng where
  s : Nat → Nat
  pos : Nat

/-- Consume one raw draw. -/
def next (g : Rng) : Nat × Rng := (g.s g.pos, ⟨g.s, g.pos + 1⟩)

/-- Model of `random.randint(a, b)` (both bounds inclusive). -/
def randint (a b : ℤ) (g : Rng) : ℤ × Rng :=
  match next g with
  | (n, g2) => (a + (n : ℤ) % (b - a + 1), g2)

/-- Model of `random.choice(xs)` for the non-empty fixed lists of the source;
`d` is a dummy default that is never selected when `xs` is non-empty. -/
def choiceD {α : Type} (xs : List α) (d : α) (g : Rng) : α × Rng :=
  match next g with
  | (n, g2) => (xs.getD (n % xs.length) d, g2)

/-- Walk a cumulative weight table: pick the first element whose weight bucket
contains `t`. -/
def weightedPick {α : Type} : List (α × Nat) → Nat → α → α
  | [], _, d => d
  | xw :: rest, t, d => if t < xw.2 then xw.1 else weightedPick rest (t - xw.2) d

/-- Model of `random.choices(xs, weights=ws)[0]` with integer weights. -/
def choicesW {α : Type} (xs : List α) (ws : List Nat) (d : α) (g : Rng) : α × Rng :=
  match next g with
  | (n, g2) => (weightedPick (xs.zip ws) (n % ws.sum) d, g2)

/-- Model of `random.random()`: a rational in `[0, 1)`. -/
def randUnit (g : Rng) : ℚ × Rng :=
  match next g with
  | (n, g2) => (((n % 1000 : Nat) : ℚ) / 1000, g2)

/-- Model of Python `round(q, 2)` (the banker's-rounding tie case of CPython is
abstracted; the claims never inspect the rounded value). -/
def round2 (q : ℚ) : ℚ := ((Int.floor (q * 100 + 1/2) : ℚ)) / 100

/-- The decimal digit character of `n % 10`. -/
def digitChar (n : Nat) : Char :=
  match n % 10 with
  | 0 => '0'
  | 1 => '1'
  | 2 => '2'
  | 3 => '3'
  | 4 => '4'
  | 5 => '5'
  | 6 => '6'
  | 7 => '7'
  | 8 => '8'
  | _ => '9'

/-- The lowercase hexadecimal digit character of `n % 16`. -/
def hexDigitChar (n : Nat) : Char :=
  match n % 16 with
  | 0 => '0'
  | 1 => '1'
  | 2 => '2'
  | 3 => '3'
  | 4 => '4'
  | 5 => '5'
  | 6 => '6'
  | 7 => '7'
  | 8 => '8'
  | 9 => '9'
  | 10 => 'a'
  | 11 => 'b'
  | 12 => 'c'
  | 13 => 'd'
  | 14 => 'e'
  | _ => 'f'

/-- Numeric value of a decimal digit character. -/
def digitVal (c : Char) : Nat := c.toNat - 48

/-- Decimal digits of a natural number, most significant first (model of
Python `str` on a non-negative int). -/
def natRepr (n : Nat) : List Char :=
  if h : n < 10 then [digitChar n]
  else natRepr (n / 10) ++ [digitChar n]
termination_by n
decreasing_by
  exact Nat.div_lt_self (by omega) (by omega)

/-- Model of Python `str` on an int. -/
def intStr (i : ℤ) : String :=
  if i < 0 then String.mk ('-' :: natRepr i.natAbs) else String.mk (natRepr i.toNat)

/-- Model of the f-string format spec `:08x` for values below `16 ^ 8`
(which `randint(0, 0xFFFFFFFF)` guarantees). -/
def hex8 (n : Nat) : List Char :=
  [hexDigitChar (n / 268435456), hexDigitChar (n / 16777216), hexDigitChar (n / 1048576),
   hexDigitChar (n / 65536), hexDigitChar (n / 4096), hexDigitChar (n / 256),
   hexDigitChar (n / 16), hexDigitChar n]

/-- Two zero-padded decimal digits of `n` (for `n < 100`). -/
def pad2 (n : Nat) : List Char := [digitChar (n / 10), digitChar n]

/-- Six zero-padded decimal digits of `n` (for `n < 1000000`). -/
def pad6 (n : Nat) : List Char :=
  [digitChar (n / 100000), digitChar (n / 10000), digitChar (n / 1000),
   digitChar (n / 100), digitChar (n / 10), digitChar n]

/-- Model of Python `str.startswith`. -/
def pyStartsWith (s p : String) : Bool := p.data.isPrefixOf s.data

/-- Does `p` occur as a contiguous run inside `l`? -/
def infixAt (p : List Char) : List Char → Bool
  | [] => p.isEmpty
  | c :: rest => p.isPrefixOf (c :: rest) || infixAt p rest

/-- Model of the Python expression `p in s` on strings. -/
def pyContains (s p : String) : Bool := infixAt p.data s.data

/-- Replace every occurrence of `pat` (non-overlapping, left to right) by `rep`. -/
def substAll (pat rep : List Char) : List Char → List Char
  | [] => []
  | c :: rest =>
    if pat ≠ [] ∧ pat.isPrefixOf (c :: rest) = true then
      rep ++ substAll pat rep (rest.drop (pat.length - 1))
    else c :: substAll pat rep rest
termination_by l => l.length
decreasing_by
  · simp only [List.length_drop, List.length_cons]
    omega
  · simp only [List.length_cons]
    omega

/-- Model of Python `str.replace`. -/
def pyReplace (s pat rep : String) : String := String.mk (substAll pat.data rep.data s.data)

/-- Model of `str.format` with keyword arguments, by sequential placeholder
replacement (see the module header for why this agrees with Python here). -/
def formatMsg (tpl : String) (args : List (String × String)) : String :=
  args.foldl (fun acc kv => pyReplace acc ("\x7b" ++ kv.1 ++ "\x7d") kv.2) tpl

/-- Month lengths of 2026 (not a leap year). -/
def monthLengths : List Nat := [31, 28, 31, 30, 31, 30, 31, 31, 30, 31, 30, 31]

/-- Convert a 0-based day-of-year into a (month, day) pair by walking the
month-length table. -/
def monthDayGo : Nat → List Nat → Nat → Nat × Nat
  | d, [], m => (m, d + 1)
  | d, ml :: rest, m => if d < ml then (m, d + 1) else monthDayGo (d - ml) rest (m + 1)

/-- Month and day (both 1-based) of the 0-based day-of-year `d` in 2026. -/
def monthDayOf (d : Nat) : Nat × Nat := monthDayGo d monthLengths 1

/-- Model of `datetime.isoformat()` for datetimes within the year 2026,
on microseconds since 2026-01-01T00:00:00.  As in Python, the fractional part
is printed (six digits) exactly when the microsecond component is non-zero. -/
def isoformat (t : ℤ) : String :=
  let tn := t.toNat
  let day := tn / 86400000000
  let rem := tn % 86400000000
  let md := monthDayOf day
  let hh := rem / 3600000000
  let mi := rem / 60000000 % 60
  let ss := rem / 1000000 % 60
  let us := rem % 1000000
  String.mk (['2', '0', '2', '6', '-'] ++ pad2 md.1 ++ '-' :: pad2 md.2 ++
    'T' :: pad2 hh ++ ':' :: pad2 mi ++ ':' :: pad2 ss ++
    (if us = 0 then [] else '.' :: pad6 us))

/-- Read exactly `w` decimal digit characters, returning their value and the rest. -/
def readFixed : Nat → List Char → Option (Nat × List Char)
  | 0, l => some (0, l)
  | _ + 1, [] => none
  | w + 1, c :: l =>
    if c.isDigit = true then
      match readFixed w l with
      | some vr => some (digitVal c * 10 ^ w + vr.1, vr.2)
      | none => none
    else none

/-- Read one expected separator character. -/
def readSep (c : Char) : List Char → Option (List Char)
  | [] => none
  | c2 :: l => if c2 = c then some l else none

/-- Structural validity of an ISO-8601 date-time string
`YYYY-MM-DDTHH:MM:SS` with an optional fractional-second suffix of one to six
digits, with in-range date and time components. -/
def isIsoDateTime (str : String) : Bool :=
  match readFixed 4 str.data with
  | none => false
  | some yr =>
  match readSep '-' yr.2 with
  | none => false
  | some l2 =>
  match readFixed 2 l2 with
  | none => false
  | some mo =>
  match readSep '-' mo.2 with
  | none => false
  | some l4 =>
  match readFixed 2 l4 with
  | none => false
  | some da =>
  match readSep 'T' da.2 with
  | none => false
  | some l6 =>
  match readFixed 2 l6 with
  | none => false
  | some ho =>
  match readSep ':' ho.2 with
  | none => false
  | some l8 =>
  match readFixed 2 l8 with
  | none => false
  | some mi =>
  match readSep ':' mi.2 with
  | none => false
  | some l10 =>
  match readFixed 2 l10 with
  | none => false
  | some se =>
  (decide (1 ≤ mo.1) && decide (mo.1 ≤ 12) && decide (1 ≤ da.1) && decide (da.1 ≤ 31) &&
   decide (ho.1 ≤ 23) && decide (mi.1 ≤ 59) && decide (se.1 ≤ 59)) &&
  (match se.2 with
   | [] => true
   | c :: fs =>
     decide (c = '.') && decide (fs ≠ []) && fs.all Char.isDigit && decide (fs.length ≤ 6))

/-- Is `c` a lowercase hexadecimal digit character? -/
def isLowerHex (c : Char) : Bool := c.isDigit || (decide ('a' ≤ c) && decide (c ≤ 'f'))

/-- JSON values produced by the generator.  The only nested object the source
ever builds (`request`) has string values only, so `obj` carries string pairs. -/
inductive Json where
  | str (s : String)
  | int (n : ℤ)
  | num (q : ℚ)
  | obj (fields : List (String × String))

/-- A log record: field names paired with values, in insertion order (Python
dicts preserve insertion order, and every key the source inserts is distinct). -/
abbrev Entry := List (String × Json)

/-- First value stored under key `k` (model of Python dict access on the
records, whose keys are distinct). -/
def lookupF (k : String) : Entry → Option Json
  | [] => none
  | kv :: rest => if kv.1 = k then some kv.2 else lookupF k rest

/-- Escapes of `json.dumps` for one character (ASCII control characters get
named or `\u00XX` escapes; all characters the generator emits are ASCII). -/
def escapeChar (c : Char) : List Char :=
  if c = '"' then ['\\', '"']
  else if c = '\\' then ['\\', '\\']
  else if c = '\n' then ['\\', 'n']
  else if c = '\t' then ['\\', 't']
  else if c = '\r' then ['\\', 'r']
  else if c = '\x08' then ['\\', 'b']
  else if c = '\x0c' then ['\\', 'f']
  else if c.toNat < 32 then ['\\', 'u', '0', '0', hexDigitChar (c.toNat / 16), hexDigitChar c.toNat]
  else [c]

/-- JSON string literal for `s`, quotes included. -/
def dumpStr (s : String) : List Char :=
  '"' :: s.data.foldr (fun c acc => escapeChar c ++ acc) ['"']

/-- Decimal rendering of a two-decimal rational (model of CPython float `repr`
for the values `round(uniform(10, 500), 2)` produces: at least one and at most
two fractional digits, trailing zero dropped down to one digit). -/
def numRepr (q : ℚ) : List Char :=
  let n : ℤ := Int.floor (q * 100)
  let ip := n / 100
  let fr := (n % 100).toNat
  (intStr ip).data ++ '.' ::
    (if fr % 10 = 0 then [digitChar (fr / 10)] else [digitChar (fr / 10), digitChar fr])

/-- Fields of the nested `request` object, rendered with the `", "` and `": "`
separators of `json.dumps`. -/
def dumpInner : List (String × String) → List Char
  | [] => []
  | [kv] => dumpStr kv.1 ++ ':' :: ' ' :: dumpStr kv.2
  | kv :: rest => dumpStr kv.1 ++ ':' :: ' ' :: dumpStr kv.2 ++ ',' :: ' ' :: dumpInner rest

/-- Model of `json.dumps` on one value. -/
def dumpJson : Json → List Char
  | Json.str s => dumpStr s
  | Json.int n => (intStr n).data
  | Json.num q => numRepr q
  | Json.obj fs => '\x7b' :: dumpInner fs ++ ['\x7d']

/-- The comma-separated field list of a record. -/
def dumpPairs : Entry → List Char
  | [] => []
  | [kv] => dumpStr kv.1 ++ ':' :: ' ' :: dumpJson kv.2
  | kv :: rest => dumpStr kv.1 ++ ':' :: ' ' :: dumpJson kv.2 ++ ',' :: ' ' :: dumpPairs rest

/-- Model of `json.dumps(entry)` with default separators. -/
def dumpEntry (e : Entry) : String := String.mk ('\x7b' :: dumpPairs e ++ ['\x7d'])

/-- Concatenation of strings (model of sequential `f.write` calls). -/
def concatStr (l : List String) : String := String.mk ((l.map String.data).flatten)

/-- Split a character list at every newline, Python `str.split` style:
a trailing newline yields a final empty chunk. -/
def lineSplit : List Char → List (List Char)
  | [] => [[]]
  | c :: rest =>
    if c = '\n' then [] :: lineSplit rest
    else
      match lineSplit rest with
      | [] => [[c]]
      | l :: ls => (c :: l) :: ls

/-- No newline character occurs in `l`. -/
def noNL (l : List Char) : Prop := ∀ c ∈ l, ¬ c = '\n'

/-- The ten fixed service names (source constant `SERVICES`). -/
def SERVICES : List String :=
  [("api-gateway"), ("api-users"), ("api-orders"), ("api-payments"), ("api-inventory"),
   ("worker-email"), ("worker-notifications"), ("worker-analytics"),
   ("cache-redis"), ("db-postgres")]

/-- The four levels (source constant `LEVELS`). -/
def LEVELS : List String := [("debug"), ("info"), ("warn"), ("error")]

/-- Source constant `LEVEL_WEIGHTS`, scaled from floats to integers by 100. -/
def LEVEL_WEIGHTS : List Nat := [30, 50, 15, 5]

/-- Source constant `PATHS`. -/
def PATHS : List String :=
  [("/api/v1/users"), ("/api/v1/users/\x7bid\x7d"), ("/api/v1/orders"),
   ("/api/v1/orders/\x7bid\x7d"), ("/api/v1/payments"), ("/api/v1/inventory"),
   ("/api/v1/health"), ("/api/v1/metrics"), ("/api/v2/users"), ("/api/v2/orders")]

/-- Source constant `HTTP_METHODS`. -/
def HTTP_METHODS : List String := [("GET"), ("POST"), ("PUT"), ("DELETE"), ("PATCH")]

/-- Source constant `METHOD_WEIGHTS`, scaled from floats to integers by 100. -/
def METHOD_WEIGHTS : List Nat := [60, 20, 10, 5, 5]

/-- Source constant `MESSAGES`, a dict from level to message templates,
modelled as a function (only ever applied to the four levels). -/
def MESSAGES (level : String) : List String :=
  if level = ("debug") then
    [("Cache lookup for key: \x7bkey\x7d"), ("Query executed in \x7blatency\x7dms"),
     ("Processing batch item \x7bidx\x7d of \x7btotal\x7d"),
     ("Loading configuration from \x7bsource\x7d"),
     ("Connection pool stats: active=\x7bactive\x7d, idle=\x7bidle\x7d"),
     ("Parsing request body"), ("Validating input parameters"), ("Serializing response")]
  else if level = ("info") then
    [("Request processed"), ("User login successful"), ("Order created"),
     ("Payment processed"), ("Email sent to \x7bemail\x7d"),
     ("Cache updated for key: \x7bkey\x7d"), ("Health check passed"), ("Service started"),
     ("Batch job completed"), ("New user registered")]
  else if level = ("warn") then
    [("Rate limit approaching: \x7bcount\x7d/1000"), ("Slow query detected: \x7blatency\x7dms"),
     ("Retry attempt \x7battempt\x7d of 3"),
     ("Connection pool near capacity: \x7bpct\x7d%"), ("Deprecated API version used"),
     ("High memory usage: \x7bpct\x7d%"), ("Queue size growing: \x7bcount\x7d"),
     ("Certificate expires in \x7bdays\x7d days")]
  else
    [("Failed to connect to database"), ("Authentication failed for user \x7buser_id\x7d"),
     ("Payment processing failed"), ("Timeout waiting for response"),
     ("Invalid request format"), ("Service unavailable"), ("Rate limit exceeded"),
     ("Out of memory"), ("Disk space critical"), ("Connection refused")]

/-- Source constant `STATUS_CODES`, a dict from level to status codes, modelled
as a function (only ever applied to the four levels). -/
def STATUS_CODES (level : String) : List ℤ :=
  if level = ("debug") then [200]
  else if level = ("info") then [200, 201, 204]
  else if level = ("warn") then [400, 401, 403, 404, 429]
  else [500, 502, 503, 504, 400, 401, 403]

/-- Source function `random_user_id`. -/
def random_user_id (g : Rng) : String × Rng :=
  match randint 1000 9999 g with
  | (n, g2) => ("u" ++ intStr n, g2)

/-- Source function `random_order_id`. -/
def random_order_id (g : Rng) : String × Rng :=
  match randint 10000 99999 g with
  | (n, g2) => ("ord-" ++ intStr n, g2)

/-- Source function `random_email` (the f-string evaluates the randint draw
before the domain choice). -/
def random_email (g : Rng) : String × Rng :=
  match randint 1 1000 g with
  | (n, g2) =>
  match choiceD [("gmail.com"), ("example.com"), ("company.org"), ("mail.io")] ("") g2 with
  | (d, g3) => ("user" ++ intStr n ++ "@" ++ d, g3)

/-- Source function `random_key`. -/
def random_key (g : Rng) : String × Rng :=
  match choiceD [("user"), ("session"), ("cache"), ("config"), ("token")] ("") g with
  | (p, g2) =>
  match randint 1 10000 g2 with
  | (n, g3) => (p ++ ":" ++ intStr n, g3)

/-- The message construction of `generate_log_entry`: template choice followed
by the thirteen keyword-argument draws of the `format` call, evaluated in the
source's left-to-right order, then placeholder substitution. -/
def msgFor (level : String) (g : Rng) : String × Rng :=
  match choiceD (MESSAGES level) ("") g with
  | (tpl, g2) =>
  match random_key g2 with
  | (keyV, g3) =>
  match randint 1 5000 g3 with
  | (latV, g4) =>
  match randint 1 100 g4 with
  | (idxV, g5) =>
  match randint 100 1000 g5 with
  | (totV, g6) =>
  match choiceD [("env"), ("file"), ("consul"), ("vault")] ("") g6 with
  | (srcV, g7) =>
  match randint 1 50 g7 with
  | (actV, g8) =>
  match randint 0 20 g8 with
  | (idlV, g9) =>
  match random_email g9 with
  | (emV, g10) =>
  match randint 1 1000 g10 with
  | (cntV, g11) =>
  match randint 1 3 g11 with
  | (attV, g12) =>
  match randint 70 99 g12 with
  | (pctV, g13) =>
  match randint 1 30 g13 with
  | (dayV, g14) =>
  match random_user_id g14 with
  | (uidV, g15) =>
  (formatMsg tpl
    [(("key"), keyV), (("latency"), intStr latV), (("idx"), intStr idxV),
     (("total"), intStr totV), (("source"), srcV), (("active"), intStr actV),
     (("idle"), intStr idlV), (("email"), emV), (("count"), intStr cntV),
     (("attempt"), intStr attV), (("pct"), intStr pctV), (("days"), intStr dayV),
     (("user_id"), uidV)], g15)

/-- The `"users" in service` part of the api- branch. -/
def apiUserPart (service : String) (g : Rng) : Entry × Rng :=
  if pyContains service ("users") = true then
    match random_user_id g with
    | (u, g2) => ([(("user_id"), Json.str u)], g2)
  else ([], g)

/-- The `"orders" in service` part of the api- branch (`amount` is
`round(uniform(10, 500), 2)` and appears only at level info). -/
def apiOrderPart (level service : String) (g : Rng) : Entry × Rng :=
  if pyContains service ("orders") = true then
    match random_order_id g with
    | (o, g2) =>
      if level = ("info") then
        match randUnit g2 with
        | (u, g3) =>
          ([(("order_id"), Json.str o), (("amount"), Json.num (round2 (10 + (500 - 10) * u)))], g3)
      else ([(("order_id"), Json.str o)], g2)
  else ([], g)

/-- Fields the api- branch appends. -/
def apiFields (level service : String) (g : Rng) : Entry × Rng :=
  match choiceD PATHS ("") g with
  | (pathV, g2) =>
  match choicesW HTTP_METHODS METHOD_WEIGHTS ("GET") g2 with
  | (methodV, g3) =>
  match (if level ≠ ("warn") then randint 1 500 g3 else randint 500 5000 g3) with
  | (lat, g4) =>
  match choiceD (STATUS_CODES level) 200 g4 with
  | (st, g5) =>
  match apiUserPart service g5 with
  | (t1, g6) =>
  match apiOrderPart level service g6 with
  | (t2, g7) =>
  ([(("path"), Json.str pathV), (("method"), Json.str methodV),
    (("latency"), Json.int lat), (("status"), Json.int st)] ++ t1 ++ t2, g7)

/-- The `"email" in service` part of the worker- branch. -/
def workerEmailPart (service : String) (g : Rng) : Entry × Rng :=
  if pyContains service ("email") = true then
    match choiceD [("welcome"), ("reset"), ("newsletter"), ("receipt")] ("") g with
    | (t, g2) => ([(("template"), Json.str t)], g2)
  else ([], g)

/-- The `"notifications" in service` part of the worker- branch. -/
def workerNotifPart (service : String) (g : Rng) : Entry × Rng :=
  if pyContains service ("notifications") = true then
    match choiceD [("push"), ("sms"), ("webhook")] ("") g with
    | (c, g2) => ([(("channel"), Json.str c)], g2)
  else ([], g)

/-- Fields the worker- branch appends. -/
def workerFields (service : String) (g : Rng) : Entry × Rng :=
  match randint 10 1000 g with
  | (bs, g2) =>
  match randint 0 1000 g2 with
  | (pr, g3) =>
  match workerEmailPart service g3 with
  | (t1, g4) =>
  match workerNotifPart service g4 with
  | (t2, g5) =>
  ([(("batch_size"), Json.int bs), (("processed"), Json.int pr)] ++ t1 ++ t2, g5)

/-- The `level in ["warn", "error"]` part of the cache/db branch. -/
def dbQueuePart (level : String) (g : Rng) : Entry × Rng :=
  if level = ("warn") ∨ level = ("error") then
    match randint 100 1000 g with
    | (qd, g2) => ([(("queue_depth"), Json.int qd)], g2)
  else ([], g)

/-- Fields the cache/db branch appends. -/
def dbFields (level : String) (g : Rng) : Entry × Rng :=
  match randint 1 100 g with
  | (cn, g2) =>
  match randint 100 10000 g2 with
  | (qs, g3) =>
  match dbQueuePart level g3 with
  | (t, g4) =>
  ([(("connections"), Json.int cn), (("queries_per_sec"), Json.int qs)] ++ t, g4)

/-- The service-prefix dispatch of `generate_log_entry` (an if/elif/elif chain
in the source). -/
def branchFields (level service : String) (g : Rng) : Entry × Rng :=
  if pyStartsWith service ("api-") = true then apiFields level service g
  else if pyStartsWith service ("worker-") = true then workerFields service g
  else if (pyStartsWith service ("cache-") || pyStartsWith service ("db-")) = true then
    dbFields level g
  else ([], g)

/-- The nested `request` object (20% of records; draws: id, two ip octets,
user agent). -/
def requestFields (g : Rng) : Entry × Rng :=
  match randint 100000 999999 g with
  | (rid, g2) =>
  match randint 1 255 g2 with
  | (o1, g3) =>
  match randint 1 255 g3 with
  | (o2, g4) =>
  match choiceD [("Mozilla/5.0"), ("curl/7.68.0"), ("Python/3.9"), ("Go-http-client/1.1")] ("") g4 with
  | (ua, g5) =>
  ([(("request"), Json.obj
    [(("id"), ("req-" ++ intStr rid)),
     (("client_ip"), ("192.168." ++ intStr o1 ++ "." ++ intStr o2)),
     (("user_agent"), ua)])], g5)

/-- The trace context (30% of records): a 16-hex-digit `trace_id` built from two
32-bit draws and an 8-hex-digit `span_id` from one. -/
def traceFields (g : Rng) : Entry × Rng :=
  match randint 0 4294967295 g with
  | (a, g2) =>
  match randint 0 4294967295 g2 with
  | (b, g3) =>
  match randint 0 4294967295 g3 with
  | (c, g4) =>
  ([(("trace_id"), Json.str (String.mk (hex8 a.toNat ++ hex8 b.toNat))),
    (("span_id"), Json.str (String.mk (hex8 c.toNat)))], g4)

/-- The two probabilistic tails of `generate_log_entry`: the `request` object
with probability 0.2, then the trace context with probability 0.3. -/
def optionalFields (g : Rng) : Entry × Rng :=
  match randUnit g with
  | (u1, g2) =>
  match (if u1 < 0.2 then requestFields g2 else ([], g2)) with
  | (t1, g3) =>
  match randUnit g3 with
  | (u2, g4) =>
  match (if u2 < 0.3 then traceFields g4 else ([], g4)) with
  | (t2, g5) =>
  (t1 ++ t2, g5)

/-- Source function `generate_log_entry`: one record from a timestamp
(microseconds since 2026-01-01) and the randomness stream. -/
def generate_log_entry (timestamp : ℤ) (g : Rng) : Entry × Rng :=
  match choicesW LEVELS LEVEL_WEIGHTS ("debug") g with
  | (level, g2) =>
  match choiceD SERVICES ("api-gateway") g2 with
  | (service, g3) =>
  match msgFor level g3 with
  | (msg, g4) =>
  match branchFields level service g4 with
  | (tail1, g5) =>
  match optionalFields g5 with
  | (tail2, g6) =>
  ([(("timestamp"), Json.str (isoformat timestamp ++ "Z")), (("level"), Json.str level),
    (("service"), Json.str service), (("msg"), Json.str msg)] ++ tail1 ++ tail2, g6)

/-- Round to the nearest integer, ties to even (the rounding CPython's
`timedelta` applies to fractional microseconds). -/
def roundHalfEven (q : ℚ) : ℤ :=
  if q - (Int.floor q : ℚ) < 1/2 then Int.floor q
  else if 1/2 < q - (Int.floor q : ℚ) then Int.floor q + 1
  else if Int.floor q % 2 = 0 then Int.floor q else Int.floor q + 1

/-- Python true division, which raises `ZeroDivisionError` on a zero divisor. -/
def pydivQ (a b : ℚ) : Except String ℚ :=
  if b = 0 then Except.error ("ZeroDivisionError: division by zero") else Except.ok (a / b)

/-- Microseconds from 2026-01-01T00:00:00 to the fixed epoch
`datetime(2026, 1, 31, 0, 0, 0)` (day-of-year 30). -/
def startOffset : ℤ := 2592000000000

/-- The per-record time increment in whole microseconds:
`timedelta(milliseconds=86400000 / num_lines)` stores
`86400000000 / N` microseconds rounded half-to-even. -/
def incUs (N : ℕ) : ℤ := roundHalfEven (86400000000 / (N : ℚ))

/-- The generation loop of `main`: `k` iterations remaining, next index `i`.
Each iteration draws the jitter (`randint(-500, 500)` milliseconds), forms the
timestamp `start + increment * i + jitter`, and generates one record. -/
def mainBody (inc : ℤ) : ℕ → ℕ → Rng → List (ℤ × Entry)
  | 0, _, _ => []
  | k + 1, i, g =>
    match randint (-500) 500 g with
    | (j, g2) =>
    match generate_log_entry (startOffset + inc * (i : ℤ) + 1000 * j) g2 with
    | (e, g3) => (startOffset + inc * (i : ℤ) + 1000 * j, e) :: mainBody inc k (i + 1) g3

/-- Source `main` up to its writes: the division that computes the time
increment (which raises for `num_lines = 0`), then the generation loop;
returns each record's timestamp (microseconds since 2026-01-01) and the record. -/
def mainPairs (N : ℕ) (g : Rng) : Except String (List (ℤ × Entry)) :=
  match pydivQ 86400000000 ((N : ℚ)) with
  | Except.error e => Except.error e
  | Except.ok q => Except.ok (mainBody (roundHalfEven q) N 0 g)

/-- The records of a run, in generation order. -/
def mainEntries (N : ℕ) (g : Rng) : Except String (List Entry) :=
  match mainPairs N g with
  | Except.error e => Except.error e
  | Except.ok ps => Except.ok (ps.map Prod.snd)

/-- The timestamps of a run (microseconds since 2026-01-01), in order. -/
def tsList (N : ℕ) (g : Rng) : List ℤ :=
  match mainPairs N g with
  | Except.error _ => []
  | Except.ok ps => ps.map Prod.fst

/-- The text `main` writes to the output file: for each record in order,
`json.dumps(entry)` followed by one newline. -/
def fileContent (N : ℕ) (g : Rng) : Except String String :=
  match mainEntries N g with
  | Except.error e => Except.error e
  | Except.ok es => Except.ok (concatStr (es.map (fun e => dumpEntry e ++ "\n")))

/-- The first record of a run (dummy empty record if none). -/
def firstEntry (N : ℕ) (g : Rng) : Entry :=
  match mainEntries N g with
  | Except.ok (e :: _) => e
  | _ => []

/-- The four size scales a file-size report could use. -/
inductive SizeScale where
  | bytes
  | kb
  | mb
  | gb
deriving DecidableEq

/-- The scale the final `print` of `main` reports, from its if/elif/else chain
(thresholds `1_000_000_000` and `1_000_000`). -/
def reportScale (size : ℕ) : SizeScale :=
  if size > 1000000000 then SizeScale.gb
  else if size > 1000000 then SizeScale.mb
  else SizeScale.kb

/-- Follows the spec's words (claim C8), not the source: the most relevant
scale among bytes, KB, MB and GB for a given size, by simple thresholds. -/
def specScaleOfSize (size : ℕ) : SizeScale :=
  if size < 1000 then SizeScale.bytes
  else if size < 1000000 then SizeScale.kb
  else if size < 1000000000 then SizeScale.mb
  else SizeScale.gb

/-- The all-zeros randomness stream: every bounded draw takes its least value. -/
def zeroRng : Rng := ⟨fun _ => 0, 0⟩

/-- The constant-1000 randomness stream: every jitter draw
`randint(-500, 500)` takes the value -500 + 1000 % 1001 = +500. -/
def maxRng : Rng := ⟨fun _ => 1000, 0⟩

/-- A stream whose service draw selects `worker-email` and all other draws are
least values. -/
def workerRng : Rng := ⟨fun p => if p = 1 then 5 else 0, 0⟩

theorem randint_fst (a b : ℤ) (g : Rng) (h : a ≤ b) :
    a ≤ (randint a b g).1 ∧ (randint a b g).1 ≤ b := by
  unfold randint next
  simp only
  have hm : (0 : ℤ) < b - a + 1 := by omega
  have h1 : 0 ≤ ((g.s g.pos : ℤ)) % (b - a + 1) := Int.emod_nonneg _ (by omega)
  have h2 : ((g.s g.pos : ℤ)) % (b - a + 1) < b - a + 1 := Int.emod_lt_of_pos _ hm
  omega

theorem choiceD_fst_mem {α : Type} (xs : List α) (d : α) (g : Rng) (h : xs ≠ []) :
    (choiceD xs d g).1 ∈ xs := by
  unfold choiceD next
  simp only
  have hl : 0 < xs.length := List.length_pos.mpr h
  have hlt : g.s g.pos % xs.length < xs.length := Nat.mod_lt _ hl
  rw [List.getD, List.get?_eq_get hlt]
  exact List.get_mem _ _ _

theorem weightedPick_mem {α : Type} :
    ∀ (l : List (α × Nat)) (t : ℕ) (d : α), t < (l.map Prod.snd).sum →
      weightedPick l t d ∈ l.map Prod.fst := by
  intro l
  induction l with
  | nil => intro t d h; simp at h
  | cons xw rest ih =>
    intro t d h
    unfold weightedPick
    by_cases hlt : t < xw.2
    · simp [hlt]
    · simp only [hlt, if_false]
      simp only [List.map_cons, List.sum_cons] at h
      exact List.mem_cons_of_mem _ (ih (t - xw.2) d (by omega))

theorem choicesW_fst_mem {α : Type} (xs : List α) (ws : List Nat) (d : α) (g : Rng)
    (hlen : xs.length = ws.length) (hsum : 0 < ws.sum) : (choicesW xs ws d g).1 ∈ xs := by
  unfold choicesW next
  simp only
  have h1 : g.s g.pos % ws.sum < ws.sum := Nat.mod_lt _ hsum
  have h2 : ((xs.zip ws).map Prod.snd).sum = ws.sum := by
    rw [List.map_snd_zip xs ws (by omega)]
  have h3 := weightedPick_mem (xs.zip ws) (g.s g.pos % ws.sum) d (by omega)
  rwa [List.map_fst_zip xs ws (by omega)] at h3

theorem lookupF_cons_eq (k : String) (kv : String × Json) (l : Entry) (h : kv.1 = k) :
    lookupF k (kv :: l) = some kv.2 := by
  cases kv
  simp only at h
  simp [lookupF, h]

theorem lookupF_cons_ne (k : String) (kv : String × Json) (l : Entry) (h : ¬ kv.1 = k) :
    lookupF k (kv :: l) = lookupF k l := by
  cases kv
  simp only at h
  simp [lookupF, h]

theorem lookupF_append_none (k : String) (l1 l2 : Entry) (h : lookupF k l1 = none) :
    lookupF k (l1 ++ l2) = lookupF k l2 := by
  induction l1 with
  | nil => simp
  | cons kv rest ih =>
    by_cases hk : kv.1 = k
    · rw [lookupF_cons_eq k kv rest hk] at h
      exact absurd h (by simp)
    · rw [lookupF_cons_ne k kv rest hk] at h
      rw [List.cons_append, lookupF_cons_ne k kv _ hk]
      exact ih h

theorem lookupF_append_some (k : String) (l1 l2 : Entry) (v : Json)
    (h : lookupF k l1 = some v) : lookupF k (l1 ++ l2) = some v := by
  induction l1 with
  | nil => simp [lookupF] at h
  | cons kv rest ih =>
    by_cases hk : kv.1 = k
    · rw [lookupF_cons_eq k kv rest hk] at h
      rw [List.cons_append, lookupF_cons_eq k kv _ hk]
      exact h
    · rw [lookupF_cons_ne k kv rest hk] at h
      rw [List.cons_append, lookupF_cons_ne k kv _ hk]
      exact ih h

theorem lookupF_none_keys (k : String) (l : Entry) (h : ∀ kv ∈ l, ¬ kv.1 = k) :
    lookupF k l = none := by
  induction l with
  | nil => rfl
  | cons kv rest ih =>
    rw [lookupF_cons_ne k kv rest (h kv (List.mem_cons_self kv rest))]
    exact ih (fun kv2 h2 => h kv2 (List.mem_cons_of_mem _ h2))

theorem noNL_nil : noNL [] := by
  intro c hc
  simp at hc

theorem noNL_append (l1 l2 : List Char) (h1 : noNL l1) (h2 : noNL l2) : noNL (l1 ++ l2) := by
  intro c hc
  rcases List.mem_append.mp hc with h | h
  · exact h1 c h
  · exact h2 c h

theorem noNL_cons (c0 : Char) (l : List Char) (h0 : ¬ c0 = '\n') (h : noNL l) :
    noNL (c0 :: l) := by
  intro c hc
  rcases List.mem_cons.mp hc with h2 | h2
  · rw [h2]; exact h0
  · exact h c h2

theorem digitChar_isDigit (n : Nat) : (digitChar n).isDigit = true := by
  have h : n % 10 < 10 := Nat.mod_lt _ (by omega)
  unfold digitChar
  generalize hg : n % 10 = m
  rw [hg] at h
  interval_cases m <;> rfl

theorem digitVal_digitChar (n : Nat) : digitVal (digitChar n) = n % 10 := by
  have h : n % 10 < 10 := Nat.mod_lt _ (by omega)
  unfold digitChar digitVal
  generalize hg : n % 10 = m
  rw [hg] at h
  interval_cases m <;> rfl

theorem hexDigitChar_lhex (n : Nat) : isLowerHex (hexDigitChar n) = true := by
  have h : n % 16 < 16 := Nat.mod_lt _ (by omega)
  unfold hexDigitChar
  generalize hg : n % 16 = m
  rw [hg] at h
  interval_cases m <;> rfl

theorem isDigit_ne_nl (c : Char) (h : c.isDigit = true) : ¬ c = '\n' := by
  intro hc
  rw [hc] at h
  exact absurd h (by decide)

theorem isLowerHex_ne_nl (c : Char) (h : isLowerHex c = true) : ¬ c = '\n' := by
  intro hc
  rw [hc] at h
  exact absurd h (by decide)

theorem natRepr_digits : ∀ n : Nat, ∀ c ∈ natRepr n, c.isDigit = true := by
  intro n
  induction n using Nat.strong_induction_on with
  | _ n ih =>
    intro c hc
    unfold natRepr at hc
    by_cases h : n < 10
    · simp only [h, dif_pos] at hc
      rcases List.mem_singleton.mp hc with h2
      rw [h2]; exact digitChar_isDigit n
    · simp only [h, dif_neg, not_false_iff] at hc
      rcases List.mem_append.mp hc with h2 | h2
      · exact ih (n / 10) (Nat.div_lt_self (by omega) (by omega)) c h2
      · rcases List.mem_singleton.mp h2 with h3
        rw [h3]; exact digitChar_isDigit n

theorem intStr_noNL (i : ℤ) : noNL (intStr i).data := by
  unfold intStr
  by_cases h : i < 0
  · simp only [h, if_pos]
    exact noNL_cons _ _ (by decide)
      (fun c hc => isDigit_ne_nl c (natRepr_digits _ c hc))
  · simp only [h, if_neg, not_false_iff]
    exact fun c hc => isDigit_ne_nl c (natRepr_digits _ c hc)

theorem numRepr_noNL (q : ℚ) : noNL (numRepr q) := by
  unfold numRepr
  apply noNL_append _ _ (intStr_noNL _)
  apply noNL_cons _ _ (by decide)
  by_cases h : ((Int.floor (q * 100) % 100).toNat) % 10 = 0
  · simp only [h, if_pos]
    exact noNL_cons _ _ (isDigit_ne_nl _ (digitChar_isDigit _)) noNL_nil
  · simp only [h, if_neg, not_false_iff]
    exact noNL_cons _ _ (isDigit_ne_nl _ (digitChar_isDigit _))
      (noNL_cons _ _ (isDigit_ne_nl _ (digitChar_isDigit _)) noNL_nil)

theorem escapeChar_noNL (c : Char) : noNL (escapeChar c) := by
  unfold escapeChar
  split
  · exact noNL_cons _ _ (by decide) (noNL_cons _ _ (by decide) noNL_nil)
  · split
    · exact noNL_cons _ _ (by decide) (noNL_cons _ _ (by decide) noNL_nil)
    · split
      · exact noNL_cons _ _ (by decide) (noNL_cons _ _ (by decide) noNL_nil)
      · split
        · exact noNL_cons _ _ (by decide) (noNL_cons _ _ (by decide) noNL_nil)
        · split
          · exact noNL_cons _ _ (by decide) (noNL_cons _ _ (by decide) noNL_nil)
          · split
            · exact noNL_cons _ _ (by decide) (noNL_cons _ _ (by decide) noNL_nil)
            · split
              · exact noNL_cons _ _ (by decide) (noNL_cons _ _ (by decide) noNL_nil)
              · split
                · apply noNL_cons _ _ (by decide)
                  apply noNL_cons _ _ (by decide)
                  apply noNL_cons _ _ (by decide)
                  apply noNL_cons _ _ (by decide)
                  apply noNL_cons _ _ (isLowerHex_ne_nl _ (hexDigitChar_lhex _))
                  exact noNL_cons _ _ (isLowerHex_ne_nl _ (hexDigitChar_lhex _)) noNL_nil
                · rename_i h1 h2 h3 h4 h5 h6 h7 h8
                  apply noNL_cons _ _ _ noNL_nil
                  intro hc
                  rw [hc] at h8
                  exact h8 (by decide)

theorem foldrEscape_noNL (l : List Char) :
    noNL (l.foldr (fun c acc => escapeChar c ++ acc) ['"']) := by
  induction l with
  | nil => exact noNL_cons _ _ (by decide) noNL_nil
  | cons c rest ih =>
    exact noNL_append _ _ (escapeChar_noNL c) ih

theorem dumpStr_noNL (s : String) : noNL (dumpStr s) := by
  unfold dumpStr
  exact noNL_cons _ _ (by decide) (foldrEscape_noNL s.data)

theorem dumpInner_noNL (fs : List (String × String)) : noNL (dumpInner fs) := by
  induction fs with
  | nil => exact noNL_nil
  | cons kv rest ih =>
    cases rest with
    | nil =>
      show noNL (dumpInner [kv])
      unfold dumpInner
      apply noNL_append _ _ (dumpStr_noNL _)
      apply noNL_cons _ _ (by decide)
      exact noNL_cons _ _ (by decide) (dumpStr_noNL _)
    | cons kv2 rest2 =>
      show noNL (dumpInner (kv :: kv2 :: rest2))
      unfold dumpInner
      apply noNL_append
      · apply noNL_append _ _ (dumpStr_noNL _)
        exact noNL_cons _ _ (by decide) (noNL_cons _ _ (by decide) (dumpStr_noNL _))
      · exact noNL_cons _ _ (by decide) (noNL_cons _ _ (by decide) ih)

theorem dumpJson_noNL (j : Json) : noNL (dumpJson j) := by
  cases j with
  | str s => exact dumpStr_noNL s
  | int n => exact intStr_noNL n
  | num q => exact numRepr_noNL q
  | obj fs =>
    unfold dumpJson
    apply noNL_cons _ _ (by decide)
    exact noNL_append _ _ (dumpInner_noNL fs) (noNL_cons _ _ (by decide) noNL_nil)

theorem dumpPairs_noNL (e : Entry) : noNL (dumpPairs e) := by
  induction e with
  | nil => exact noNL_nil
  | cons kv rest ih =>
    cases rest with
    | nil =>
      show noNL (dumpPairs [kv])
      unfold dumpPairs
      apply noNL_append _ _ (dumpStr_noNL _)
      apply noNL_cons _ _ (by decide)
      exact noNL_cons _ _ (by decide) (dumpJson_noNL _)
    | cons kv2 rest2 =>
      show noNL (dumpPairs (kv :: kv2 :: rest2))
      unfold dumpPairs
      apply noNL_append
      · apply noNL_append _ _ (dumpStr_noNL _)
        exact noNL_cons _ _ (by decide) (noNL_cons _ _ (by decide) (dumpJson_noNL _))
      · exact noNL_cons _ _ (by decide) (noNL_cons _ _ (by decide) ih)

theorem dumpEntry_noNL (e : Entry) : noNL (dumpEntry e).data := by
  unfold dumpEntry
  show noNL ('\x7b' :: dumpPairs e ++ ['\x7d'])
  apply noNL_cons _ _ (by decide)
  exact noNL_append _ _ (dumpPairs_noNL e) (noNL_cons _ _ (by decide) noNL_nil)

theorem lineSplit_shift (a rest : List Char) (h : noNL a) :
    lineSplit (a ++ '\n' :: rest) = a :: lineSplit rest := by
  induction a with
  | nil => simp [lineSplit]
  | cons c a2 ih =>
    have hc : ¬ c = '\n' := h c (List.mem_cons_self _ _)
    have h2 : noNL a2 := fun x hx => h x (List.mem_cons_of_mem _ hx)
    show lineSplit (c :: (a2 ++ '\n' :: rest)) = (c :: a2) :: lineSplit rest
    have hstep : lineSplit (c :: (a2 ++ '\n' :: rest)) =
        if c = '\n' then [] :: lineSplit (a2 ++ '\n' :: rest)
        else match lineSplit (a2 ++ '\n' :: rest) with
          | [] => [[c]]
          | l :: ls => (c :: l) :: ls := rfl
    rw [hstep, if_neg hc, ih h2]

theorem STATUS_CODES_ne_nil (level : String) : STATUS_CODES level ≠ [] := by
  unfold STATUS_CODES
  split_ifs <;> simp

theorem MESSAGES_ne_nil (level : String) : MESSAGES level ≠ [] := by
  unfold MESSAGES
  split_ifs <;> simp

theorem sndS {α : Type} {f : α × Rng} {v : α} {g2 : Rng} {gs : Nat → Nat}
    (h : f = (v, g2)) (hf : f.2.s = gs) : g2.s = gs := by
  rw [← hf, h]

theorem apiUserPart_shape (service : String) (g : Rng) :
    ∃ t1 gf, apiUserPart service g = (t1, gf) ∧ (∀ kv ∈ t1, kv.1 = ("user_id")) ∧
      gf.s = g.s := by
  by_cases h : pyContains service ("users") = true
  · rcases hr : random_user_id g with ⟨u, g2⟩
    refine ⟨[(("user_id"), Json.str u)], g2, ?_, ?_, sndS hr rfl⟩
    · unfold apiUserPart
      simp [h, hr]
    · intro kv hkv
      simp only [List.mem_singleton] at hkv
      rw [hkv]
  · refine ⟨[], g, ?_, by simp, rfl⟩
    unfold apiUserPart
    simp [h]

theorem apiOrderPart_shape (level service : String) (g : Rng) :
    ∃ t2 gf, apiOrderPart level service g = (t2, gf) ∧
      (∀ kv ∈ t2, kv.1 = ("order_id") ∨ kv.1 = ("amount")) ∧
      gf.s = g.s := by
  by_cases h : pyContains service ("orders") = true
  · rcases hr : random_order_id g with ⟨o, g2⟩
    have hg2 : g2.s = g.s := sndS hr rfl
    by_cases hi : level = ("info")
    · rcases hu : randUnit g2 with ⟨u, g3⟩
      refine ⟨[(("order_id"), Json.str o),
        (("amount"), Json.num (round2 (10 + (500 - 10) * u)))], g3, ?_, ?_,
        (sndS hu rfl).trans hg2⟩
      · unfold apiOrderPart
        simp [h, hr, hi, hu]
      · intro kv hkv
        rcases List.mem_cons.mp hkv with h2 | h2
        · left; rw [h2]
        · right
          rw [List.mem_singleton.mp h2]
    · refine ⟨[(("order_id"), Json.str o)], g2, ?_, ?_, hg2⟩
      · unfold apiOrderPart
        simp [h, hr, hi]
      · intro kv hkv
        left
        rw [List.mem_singleton.mp hkv]
  · refine ⟨[], g, ?_, by simp, rfl⟩
    unfold apiOrderPart
    simp [h]

theorem apiFields_shape (level service : String) (g : Rng) :
    ∃ pathV methodV lat st t1 t2 gf,
      apiFields level service g =
        ([(("path"), Json.str pathV), (("method"), Json.str methodV),
          (("latency"), Json.int lat), (("status"), Json.int st)] ++ t1 ++ t2, gf) ∧
      st ∈ STATUS_CODES level ∧
      (level = ("warn") → 500 ≤ lat ∧ lat ≤ 5000) ∧
      (¬ level = ("warn") → 1 ≤ lat ∧ lat ≤ 500) ∧
      (∀ kv ∈ t1, kv.1 = ("user_id")) ∧
      (∀ kv ∈ t2, kv.1 = ("order_id") ∨ kv.1 = ("amount")) ∧
      gf.s = g.s := by
  rcases h1 : choiceD PATHS ("") g with ⟨pathV, g2⟩
  have hg2 : g2.s = g.s := sndS h1 rfl
  rcases h2 : choicesW HTTP_METHODS METHOD_WEIGHTS ("GET") g2 with ⟨methodV, g3⟩
  have hg3 : g3.s = g.s := (sndS h2 rfl).trans hg2
  rcases h3 : (if level ≠ ("warn") then randint 1 500 g3 else randint 500 5000 g3) with ⟨lat, g4⟩
  have hb3 : (if level ≠ ("warn") then randint 1 500 g3 else randint 500 5000 g3).2.s = g3.s := by
    split_ifs <;> rfl
  have hg4 : g4.s = g.s := (sndS h3 hb3).trans hg3
  rcases h4 : choiceD (STATUS_CODES level) 200 g4 with ⟨st, g5⟩
  have hg5 : g5.s = g.s := (sndS h4 rfl).trans hg4
  obtain ⟨t1, g6, h5, ht1, hs6⟩ := apiUserPart_shape service g5
  have hg6 : g6.s = g.s := hs6.trans hg5
  obtain ⟨t2, g7, h6, ht2, hs7⟩ := apiOrderPart_shape level service g6
  refine ⟨pathV, methodV, lat, st, t1, t2, g7, ?_, ?_, ?_, ?_, ht1, ht2, hs7.trans hg6⟩
  · unfold apiFields
    simp [h1, h2, h3, h4, h5, h6]
  · have := choiceD_fst_mem (STATUS_CODES level) 200 g4 (STATUS_CODES_ne_nil level)
    rwa [h4] at this
  · intro hw
    have hcond : ¬ level ≠ ("warn") := by simp [hw]
    rw [if_neg hcond] at h3
    have := randint_fst 500 5000 g3 (by omega)
    rw [h3] at this
    exact this
  · intro hw
    rw [if_pos hw] at h3
    have := randint_fst 1 500 g3 (by omega)
    rw [h3] at this
    exact this

theorem workerEmailPart_shape (service : String) (g : Rng) :
    ∃ t gf, workerEmailPart service g =
      ((if pyContains service ("email") = true then [(("template"), Json.str t)] else []), gf) ∧
      gf.s = g.s := by
  by_cases h : pyContains service ("email") = true
  · rcases hr : choiceD [("welcome"), ("reset"), ("newsletter"), ("receipt")] ("") g with ⟨t, g2⟩
    refine ⟨t, g2, ?_, sndS hr rfl⟩
    unfold workerEmailPart
    simp [h, hr]
  · refine ⟨(""), g, ?_, rfl⟩
    unfold workerEmailPart
    simp [h]

theorem workerNotifPart_shape (service : String) (g : Rng) :
    ∃ c gf, workerNotifPart service g =
      ((if pyContains service ("notifications") = true then [(("channel"), Json.str c)] else []), gf) ∧
      gf.s = g.s := by
  by_cases h : pyContains service ("notifications") = true
  · rcases hr : choiceD [("push"), ("sms"), ("webhook")] ("") g with ⟨c, g2⟩
    refine ⟨c, g2, ?_, sndS hr rfl⟩
    unfold workerNotifPart
    simp [h, hr]
  · refine ⟨(""), g, ?_, rfl⟩
    unfold workerNotifPart
    simp [h]

theorem workerFields_shape (service : String) (g : Rng) :
    ∃ bs pr t c gf,
      workerFields service g =
        ([(("batch_size"), Json.int bs), (("processed"), Json.int pr)] ++
          (if pyContains service ("email") = true then [(("template"), Json.str t)] else []) ++
          (if pyContains service ("notifications") = true then [(("channel"), Json.str c)] else []),
         gf) ∧
      10 ≤ bs ∧ bs ≤ 1000 ∧ 0 ≤ pr ∧ pr ≤ 1000 ∧ gf.s = g.s := by
  rcases h1 : randint 10 1000 g with ⟨bs, g2⟩
  have hg2 : g2.s = g.s := sndS h1 rfl
  rcases h2 : randint 0 1000 g2 with ⟨pr, g3⟩
  have hg3 : g3.s = g.s := (sndS h2 rfl).trans hg2
  obtain ⟨t, g4, h3, hs4⟩ := workerEmailPart_shape service g3
  have hg4 : g4.s = g.s := hs4.trans hg3
  obtain ⟨c, g5, h4, hs5⟩ := workerNotifPart_shape service g4
  have hb := randint_fst 10 1000 g (by omega)
  rw [h1] at hb
  have hp := randint_fst 0 1000 g2 (by omega)
  rw [h2] at hp
  refine ⟨bs, pr, t, c, g5, ?_, hb.1, hb.2, hp.1, hp.2, hs5.trans hg4⟩
  unfold workerFields
  simp [h1, h2, h3, h4]

theorem dbQueuePart_shape (level : String) (g : Rng) :
    ∃ qd gf, dbQueuePart level g =
      ((if level = ("warn") ∨ level = ("error") then [(("queue_depth"), Json.int qd)] else []), gf) ∧
      gf.s = g.s := by
  by_cases h : level = ("warn") ∨ level = ("error")
  · rcases hr : randint 100 1000 g with ⟨qd, g2⟩
    refine ⟨qd, g2, ?_, sndS hr rfl⟩
    unfold dbQueuePart
    simp [h, hr]
  · refine ⟨0, g, ?_, rfl⟩
    unfold dbQueuePart
    simp [h]

theorem dbFields_shape (level : String) (g : Rng) :
    ∃ cn qs qd gf,
      dbFields level g =
        ([(("connections"), Json.int cn), (("queries_per_sec"), Json.int qs)] ++
          (if level = ("warn") ∨ level = ("error") then [(("queue_depth"), Json.int qd)] else []),
         gf) ∧
      1 ≤ cn ∧ cn ≤ 100 ∧ 100 ≤ qs ∧ qs ≤ 10000 ∧ gf.s = g.s := by
  rcases h1 : randint 1 100 g with ⟨cn, g2⟩
  have hg2 : g2.s = g.s := sndS h1 rfl
  rcases h2 : randint 100 10000 g2 with ⟨qs, g3⟩
  have hg3 : g3.s = g.s := (sndS h2 rfl).trans hg2
  obtain ⟨qd, g4, h3, hs4⟩ := dbQueuePart_shape level g3
  have hc := randint_fst 1 100 g (by omega)
  rw [h1] at hc
  have hq := randint_fst 100 10000 g2 (by omega)
  rw [h2] at hq
  refine ⟨cn, qs, qd, g4, ?_, hc.1, hc.2, hq.1, hq.2, hs4.trans hg3⟩
  unfold dbFields
  simp [h1, h2, h3]

theorem requestFields_shape (g : Rng) :
    ∃ ob gf, requestFields g = ([(("request"), Json.obj ob)], gf) ∧ gf.s = g.s := by
  rcases h1 : randint 100000 999999 g with ⟨rid, g2⟩
  have hg2 : g2.s = g.s := sndS h1 rfl
  rcases h2 : randint 1 255 g2 with ⟨o1, g3⟩
  have hg3 : g3.s = g.s := (sndS h2 rfl).trans hg2
  rcases h3 : randint 1 255 g3 with ⟨o2, g4⟩
  have hg4 : g4.s = g.s := (sndS h3 rfl).trans hg3
  rcases h4 : choiceD [("Mozilla/5.0"), ("curl/7.68.0"), ("Python/3.9"), ("Go-http-client/1.1")] ("") g4 with ⟨ua, g5⟩
  refine ⟨[(("id"), ("req-" ++ intStr rid)),
    (("client_ip"), ("192.168." ++ intStr o1 ++ "." ++ intStr o2)),
    (("user_agent"), ua)], g5, ?_, (sndS h4 rfl).trans hg4⟩
  unfold requestFields
  simp [h1, h2, h3, h4]

theorem traceFields_shape (g : Rng) :
    ∃ a b c gf,
      traceFields g = ([(("trace_id"), Json.str (String.mk (hex8 a ++ hex8 b))),
        (("span_id"), Json.str (String.mk (hex8 c)))], gf) ∧ gf.s = g.s := by
  rcases h1 : randint 0 4294967295 g with ⟨a, g2⟩
  have hg2 : g2.s = g.s := sndS h1 rfl
  rcases h2 : randint 0 4294967295 g2 with ⟨b, g3⟩
  have hg3 : g3.s = g.s := (sndS h2 rfl).trans hg2
  rcases h3 : randint 0 4294967295 g3 with ⟨c, g4⟩
  refine ⟨a.toNat, b.toNat, c.toNat, g4, ?_, (sndS h3 rfl).trans hg3⟩
  unfold traceFields
  simp [h1, h2, h3]

theorem optionalFields_shape (g : Rng) :
    ∃ t1 t2 gf, optionalFields g = (t1 ++ t2, gf) ∧
      (t1 = [] ∨ ∃ ob, t1 = [(("request"), Json.obj ob)]) ∧
      (t2 = [] ∨ ∃ a b c : Nat,
        t2 = [(("trace_id"), Json.str (String.mk (hex8 a ++ hex8 b))),
          (("span_id"), Json.str (String.mk (hex8 c)))]) ∧
      gf.s = g.s := by
  rcases h1 : randUnit g with ⟨u1, g2⟩
  have hg2 : g2.s = g.s := sndS h1 rfl
  have ht1 : ∃ t1 g3, (if u1 < 0.2 then requestFields g2 else ([], g2)) = (t1, g3) ∧
      (t1 = [] ∨ ∃ ob, t1 = [(("request"), Json.obj ob)]) ∧ g3.s = g2.s := by
    by_cases hc : u1 < 0.2
    · obtain ⟨ob, gf, hr, hrs⟩ := requestFields_shape g2
      exact ⟨[(("request"), Json.obj ob)], gf, by simp [hc, hr], Or.inr ⟨ob, rfl⟩, hrs⟩
    · exact ⟨[], g2, by simp [hc], Or.inl rfl, rfl⟩
  obtain ⟨t1, g3, h2, hs1, hg3'⟩ := ht1
  have hg3 : g3.s = g.s := hg3'.trans hg2
  rcases h3 : randUnit g3 with ⟨u2, g4⟩
  have hg4 : g4.s = g.s := (sndS h3 rfl).trans hg3
  have ht2 : ∃ t2 g5, (if u2 < 0.3 then traceFields g4 else ([], g4)) = (t2, g5) ∧
      (t2 = [] ∨ ∃ a b c : Nat,
        t2 = [(("trace_id"), Json.str (String.mk (hex8 a ++ hex8 b))),
          (("span_id"), Json.str (String.mk (hex8 c)))]) ∧ g5.s = g4.s := by
    by_cases hc : u2 < 0.3
    · obtain ⟨a, b, c, gf, hr, hrs⟩ := traceFields_shape g4
      exact ⟨[(("trace_id"), Json.str (String.mk (hex8 a ++ hex8 b))),
        (("span_id"), Json.str (String.mk (hex8 c)))], gf,
        by simp [hc, hr], Or.inr ⟨a, b, c, rfl⟩, hrs⟩
    · exact ⟨[], g4, by simp [hc], Or.inl rfl, rfl⟩
  obtain ⟨t2, g5, h4, hs2, hg5'⟩ := ht2
  refine ⟨t1, t2, g5, ?_, hs1, hs2, hg5'.trans hg4⟩
  unfold optionalFields
  simp [h1, h2, h3, h4]

theorem branchFields_shape (level service : String) (g : Rng) :
    ∃ tail gf, branchFields level service g = (tail, gf) ∧
      (∀ kv ∈ tail, kv.1 ∈
        [("path"), ("method"), ("latency"), ("status"), ("user_id"), ("order_id"), ("amount"),
         ("batch_size"), ("processed"), ("template"), ("channel"),
         ("connections"), ("queries_per_sec"), ("queue_depth")]) ∧
      (pyStartsWith service ("api-") = true →
        ∃ pathV methodV lat st t1 t2,
          tail = [(("path"), Json.str pathV), (("method"), Json.str methodV),
            (("latency"), Json.int lat), (("status"), Json.int st)] ++ t1 ++ t2 ∧
          st ∈ STATUS_CODES level ∧
          (level = ("warn") → 500 ≤ lat ∧ lat ≤ 5000) ∧
          (¬ level = ("warn") → 1 ≤ lat ∧ lat ≤ 500) ∧
          (∀ kv ∈ t1, kv.1 = ("user_id")) ∧
          (∀ kv ∈ t2, kv.1 = ("order_id") ∨ kv.1 = ("amount"))) ∧
      (pyStartsWith service ("api-") = false → pyStartsWith service ("worker-") = true →
        ∃ bs pr t c,
          tail = [(("batch_size"), Json.int bs), (("processed"), Json.int pr)] ++
            (if pyContains service ("email") = true then [(("template"), Json.str t)] else []) ++
            (if pyContains service ("notifications") = true then [(("channel"), Json.str c)] else []) ∧
          10 ≤ bs ∧ bs ≤ 1000 ∧ 0 ≤ pr ∧ pr ≤ 1000) ∧
      (pyStartsWith service ("api-") = false → pyStartsWith service ("worker-") = false →
        (pyStartsWith service ("cache-") || pyStartsWith service ("db-")) = true →
        ∃ cn qs qd,
          tail = [(("connections"), Json.int cn), (("queries_per_sec"), Json.int qs)] ++
            (if level = ("warn") ∨ level = ("error") then [(("queue_depth"), Json.int qd)] else []) ∧
          1 ≤ cn ∧ cn ≤ 100 ∧ 100 ≤ qs ∧ qs ≤ 10000) ∧
      gf.s = g.s := by
  unfold branchFields
  by_cases hapi : pyStartsWith service ("api-") = true
  · obtain ⟨pathV, methodV, lat, st, t1, t2, gf, heq, hst, hw1, hw2, ht1, ht2, hsf⟩ :=
      apiFields_shape level service g
    rw [if_pos hapi]
    refine ⟨_, gf, heq, ?_, ?_, ?_, ?_, hsf⟩
    · intro kv hkv
      rcases List.mem_append.mp hkv with hm | hm
      · rcases List.mem_append.mp hm with hm2 | hm2
        · fin_cases hm2 <;> simp
        · rw [ht1 kv hm2]; simp
      · rcases ht2 kv hm with h | h
        all_goals rw [h]; simp
    · intro _
      exact ⟨pathV, methodV, lat, st, t1, t2, rfl, hst, hw1, hw2, ht1, ht2⟩
    · intro hf _
      rw [hapi] at hf
      exact absurd hf (by simp)
    · intro hf _ _
      rw [hapi] at hf
      exact absurd hf (by simp)
  · rw [if_neg hapi]
    have hapi2 : pyStartsWith service ("api-") = false := by
      cases hb : pyStartsWith service ("api-")
      · rfl
      · exact absurd hb hapi
    by_cases hwk : pyStartsWith service ("worker-") = true
    · obtain ⟨bs, pr, t, c, gf, heq, hb1, hb2, hp1, hp2, hsf⟩ := workerFields_shape service g
      rw [if_pos hwk]
      refine ⟨_, gf, heq, ?_, ?_, ?_, ?_, hsf⟩
      · intro kv hkv
        rcases List.mem_append.mp hkv with hm | hm
        · rcases List.mem_append.mp hm with hm2 | hm2
          · fin_cases hm2 <;> simp
          · by_cases hc : pyContains service ("email") = true
            · rw [if_pos hc] at hm2
              rw [List.mem_singleton.mp hm2]
              simp
            · rw [if_neg hc] at hm2
              simp at hm2
        · by_cases hc : pyContains service ("notifications") = true
          · rw [if_pos hc] at hm
            rw [List.mem_singleton.mp hm]
            simp
          · rw [if_neg hc] at hm
            simp at hm
      · intro hcontra
        rw [hcontra] at hapi2
        exact absurd hapi2 (by simp)
      · intro _ _
        exact ⟨bs, pr, t, c, rfl, hb1, hb2, hp1, hp2⟩
      · intro _ hf _
        rw [hwk] at hf
        exact absurd hf (by simp)
    · rw [if_neg hwk]
      have hwk2 : pyStartsWith service ("worker-") = false := by
        cases hb : pyStartsWith service ("worker-")
        · rfl
        · exact absurd hb hwk
      by_cases hdb : (pyStartsWith service ("cache-") || pyStartsWith service ("db-")) = true
      · obtain ⟨cn, qs, qd, gf, heq, hc1, hc2, hq1, hq2, hsf⟩ := dbFields_shape level g
        rw [if_pos hdb]
        refine ⟨_, gf, heq, ?_, ?_, ?_, ?_, hsf⟩
        · intro kv hkv
          rcases List.mem_append.mp hkv with hm | hm
          · fin_cases hm <;> simp
          · by_cases hc : level = ("warn") ∨ level = ("error")
            · rw [if_pos hc] at hm
              rw [List.mem_singleton.mp hm]
              simp
            · rw [if_neg hc] at hm
              simp at hm
        · intro hcontra
          rw [hcontra] at hapi2
          exact absurd hapi2 (by simp)
        · intro _ hcontra
          rw [hcontra] at hwk2
          exact absurd hwk2 (by simp)
        · intro _ _ _
          exact ⟨cn, qs, qd, rfl, hc1, hc2, hq1, hq2⟩
      · rw [if_neg hdb]
        refine ⟨[], g, rfl, by simp, ?_, ?_, ?_, rfl⟩
        · intro hcontra
          rw [hcontra] at hapi2
          exact absurd hapi2 (by simp)
        · intro _ hcontra
          rw [hcontra] at hwk2
          exact absurd hwk2 (by simp)
        · intro _ _ hcontra
          exact absurd hcontra hdb

theorem gle_parts (ts : ℤ) (g : Rng) :
    ∃ level service msg tail1 tail2 gf,
      generate_log_entry ts g =
        ([(("timestamp"), Json.str (isoformat ts ++ "Z")), (("level"), Json.str level),
          (("service"), Json.str service), (("msg"), Json.str msg)] ++ tail1 ++ tail2, gf) ∧
      level ∈ LEVELS ∧ service ∈ SERVICES ∧
      (∃ gB, (branchFields level service gB).1 = tail1) ∧
      (∃ gO, (optionalFields gO).1 = tail2) ∧
      gf.s = g.s := by
  rcases h1 : choicesW LEVELS LEVEL_WEIGHTS ("debug") g with ⟨level, g2⟩
  have hg2 : g2.s = g.s := sndS h1 rfl
  rcases h2 : choiceD SERVICES ("api-gateway") g2 with ⟨service, g3⟩
  have hg3 : g3.s = g.s := (sndS h2 rfl).trans hg2
  rcases h3 : msgFor level g3 with ⟨msg, g4⟩
  have hg4 : g4.s = g.s := (sndS h3 rfl).trans hg3
  rcases h4 : branchFields level service g4 with ⟨tail1, g5⟩
  have hg5 : g5.s = g.s := by
    obtain ⟨tailB, gfB, heqB, _, _, _, _, hsB⟩ := branchFields_shape level service g4
    rw [h4] at heqB
    simp only [Prod.mk.injEq] at heqB
    rw [← heqB.2] at hsB
    exact hsB.trans hg4
  rcases h5 : optionalFields g5 with ⟨tail2, g6⟩
  have hg6 : g6.s = g.s := by
    obtain ⟨t1O, t2O, gfO, heqO, _, _, hsO⟩ := optionalFields_shape g5
    rw [h5] at heqO
    simp only [Prod.mk.injEq] at heqO
    rw [← heqO.2] at hsO
    exact hsO.trans hg5
  refine ⟨level, service, msg, tail1, tail2, g6, ?_, ?_, ?_, ⟨g4, by rw [h4]⟩, ⟨g5, by rw [h5]⟩, hg6⟩
  · unfold generate_log_entry
    simp [h1, h2, h3, h4, h5]
  · have := choicesW_fst_mem LEVELS LEVEL_WEIGHTS ("debug") g (by decide) (by decide)
    rw [h1] at this
    exact this
  · have := choiceD_fst_mem SERVICES ("api-gateway") g2 (by decide)
    rw [h2] at this
    exact this

theorem roundHalfEven_le (q : ℚ) : (roundHalfEven q : ℚ) ≤ q + 1/2 := by
  unfold roundHalfEven
  have h1 := Int.floor_le q
  have h2 := Int.lt_floor_add_one q
  split_ifs with ha hb hc
  · linarith
  · push_cast
    linarith
  · linarith
  · push_cast
    linarith

theorem roundHalfEven_ge (q : ℚ) : q - 1/2 ≤ (roundHalfEven q : ℚ) := by
  unfold roundHalfEven
  have h1 := Int.floor_le q
  have h2 := Int.lt_floor_add_one q
  split_ifs with ha hb hc
  · linarith
  · push_cast
    linarith
  · linarith
  · push_cast
    linarith

theorem roundHalfEven_nonneg (q : ℚ) (h : 0 ≤ q) : 0 ≤ roundHalfEven q := by
  have hf : 0 ≤ Int.floor q := Int.floor_nonneg.mpr h
  unfold roundHalfEven
  split_ifs <;> omega

theorem incUs_nonneg (N : ℕ) : 0 ≤ incUs N :=
  roundHalfEven_nonneg _ (div_nonneg (by norm_num) (Nat.cast_nonneg N))

theorem incUs_le (N : ℕ) : (incUs N : ℚ) ≤ 86400000000 / (N : ℚ) + 1/2 := by
  unfold incUs
  exact roundHalfEven_le _

theorem incUs_ge (N : ℕ) : 86400000000 / (N : ℚ) - 1/2 ≤ (incUs N : ℚ) := by
  unfold incUs
  exact roundHalfEven_ge _

theorem incUs_mul_le (N i : ℕ) (hN : 1 ≤ N) (hi : i < N) :
    incUs N * (i : ℤ) ≤ 172800000000 := by
  by_cases hz : incUs N ≤ 0
  · have h0 : incUs N = 0 := le_antisymm hz (incUs_nonneg N)
    rw [h0]
    simp
  · push_neg at hz
    have h1 : (1 : ℚ) ≤ ((incUs N : ℤ) : ℚ) := by exact_mod_cast hz
    have h2 := incUs_le N
    have hNq : (0 : ℚ) < (N : ℚ) := by exact_mod_cast (by omega : 0 < N)
    have h4 : (1 : ℚ)/2 ≤ 86400000000 / (N : ℚ) := by linarith
    have h5 : (N : ℚ) ≤ 172800000000 := by
      have := (le_div_iff₀ hNq).mp h4
      linarith
    have h6 : ((i : ℕ) : ℚ) ≤ (N : ℚ) := by exact_mod_cast le_of_lt hi
    have h7 : ((incUs N : ℤ) : ℚ) * ((i : ℕ) : ℚ) ≤ (86400000000 / (N : ℚ) + 1/2) * (N : ℚ) := by
      apply mul_le_mul h2 h6 (by positivity) ?_
      positivity
    have h8 : (86400000000 / (N : ℚ) + 1/2) * (N : ℚ) = 86400000000 + (N : ℚ)/2 := by
      field_simp
      ring
    have h9 : ((incUs N : ℤ) : ℚ) * ((i : ℕ) : ℚ) ≤ 172800000000 := by
      rw [h8] at h7
      linarith
    exact_mod_cast h9

theorem mainPairs_ok (N : ℕ) (g : Rng) (h : 1 ≤ N) :
    mainPairs N g = Except.ok (mainBody (incUs N) N 0 g) := by
  unfold mainPairs pydivQ incUs
  have hnz : ((N : ℚ)) ≠ 0 := Nat.cast_ne_zero.mpr (by omega)
  simp [hnz]

theorem mainBody_length (inc : ℤ) : ∀ (k i : ℕ) (g : Rng), (mainBody inc k i g).length = k := by
  intro k
  induction k with
  | zero => intro i g; rfl
  | succ k ih =>
    intro i g
    unfold mainBody
    rcases h1 : randint (-500) 500 g with ⟨j0, g2⟩
    rcases h2 : generate_log_entry (startOffset + inc * (i : ℤ) + 1000 * j0) g2 with ⟨e0, g3⟩
    simp only [h1, h2]
    simp [ih]

theorem mainBody_get (inc : ℤ) : ∀ (k i m : ℕ) (g : Rng), m < k →
    ∃ j e, -500 ≤ j ∧ j ≤ 500 ∧
      (mainBody inc k i g).get? m =
        some (startOffset + inc * ((i : ℤ) + (m : ℤ)) + 1000 * j, e) := by
  intro k
  induction k with
  | zero => intro i m g hm; omega
  | succ k ih =>
    intro i m g hm
    unfold mainBody
    rcases h1 : randint (-500) 500 g with ⟨j0, g2⟩
    rcases h2 : generate_log_entry (startOffset + inc * (i : ℤ) + 1000 * j0) g2 with ⟨e0, g3⟩
    simp only [h1, h2]
    cases m with
    | zero =>
      have hj := randint_fst (-500) 500 g (by omega)
      rw [h1] at hj
      refine ⟨j0, e0, hj.1, hj.2, ?_⟩
      simp
    | succ m =>
      obtain ⟨j, e, hj1, hj2, hg⟩ := ih (i + 1) m g3 (by omega)
      refine ⟨j, e, hj1, hj2, ?_⟩
      have hcast : ((i + 1 : ℕ) : ℤ) + (m : ℤ) = (i : ℤ) + ((m + 1 : ℕ) : ℤ) := by
        push_cast
        ring
      rw [hcast] at hg
      simpa using hg

theorem mainBody_mem (inc : ℤ) (N : ℕ) (hinc : 0 ≤ inc)
    (hmul : ∀ i : ℕ, i < N → inc * (i : ℤ) ≤ 172800000000) :
    ∀ (k i : ℕ) (g : Rng), i + k ≤ N → ∀ p ∈ mainBody inc k i g,
      ∃ g2, p.2 = (generate_log_entry p.1 g2).1 ∧ 0 ≤ p.1 ∧ p.1 < 31536000000000 := by
  intro k
  induction k with
  | zero =>
    intro i g hik p hp
    simp [mainBody] at hp
  | succ k ih =>
    intro i g hik p hp
    unfold mainBody at hp
    rcases h1 : randint (-500) 500 g with ⟨j0, g2⟩
    rcases h2 : generate_log_entry (startOffset + inc * (i : ℤ) + 1000 * j0) g2 with ⟨e0, g3⟩
    simp only [h1, h2] at hp
    rcases List.mem_cons.mp hp with hh | hh
    · have hj := randint_fst (-500) 500 g (by omega)
      rw [h1] at hj
      have hb : inc * (i : ℤ) ≤ 172800000000 := hmul i (by omega)
      have h0 : 0 ≤ inc * (i : ℤ) := mul_nonneg hinc (Int.natCast_nonneg i)
      refine ⟨g2, ?_, ?_, ?_⟩
      · rw [hh]
        simp only
        rw [h2]
      · rw [hh]
        simp only
        unfold startOffset
        generalize hX : inc * (i : ℤ) = X at hb h0
        omega
      · rw [hh]
        simp only
        unfold startOffset
        generalize hX : inc * (i : ℤ) = X at hb h0
        omega
    · exact ih (i + 1) g3 (by omega) p hh

theorem concatStr_cons (s : String) (l : List String) :
    (concatStr (s :: l)).data = s.data ++ (concatStr l).data := by
  simp [concatStr]

theorem lineSplit_concat (es : List Entry) :
    lineSplit (concatStr (es.map (fun e => dumpEntry e ++ "\n"))).data =
      es.map (fun e => (dumpEntry e).data) ++ [[]] := by
  induction es with
  | nil => rfl
  | cons e rest ih =>
    have hd : (concatStr ((e :: rest).map (fun e2 => dumpEntry e2 ++ "\n"))).data =
        (dumpEntry e).data ++ '\n' :: (concatStr (rest.map (fun e2 => dumpEntry e2 ++ "\n"))).data := by
      rw [List.map_cons, concatStr_cons]
      rw [String.data_append]
      simp
    rw [hd, lineSplit_shift _ _ (dumpEntry_noNL e), ih]
    simp

set_option maxRecDepth 8000 in
theorem monthDayOf_bounds : ∀ d : Nat, d < 365 →
    1 ≤ (monthDayOf d).1 ∧ (monthDayOf d).1 ≤ 12 ∧
    1 ≤ (monthDayOf d).2 ∧ (monthDayOf d).2 ≤ 31 := by
  decide

theorem pad6_digits (n : Nat) : (pad6 n).all Char.isDigit = true := by
  simp [pad6, digitChar_isDigit]

theorem pad6_ne_nil (n : Nat) : pad6 n ≠ [] := by
  simp [pad6]

theorem pad6_length (n : Nat) : (pad6 n).length ≤ 6 := by
  simp [pad6]

theorem readFixed_pad2 (n : Nat) (r : List Char) (h : n < 100) :
    readFixed 2 (digitChar (n / 10) :: digitChar n :: r) = some (n, r) := by
  have h1 := digitChar_isDigit (n / 10)
  have h2 := digitChar_isDigit n
  have step1 : readFixed 2 (digitChar (n / 10) :: digitChar n :: r) =
      if (digitChar (n / 10)).isDigit = true then
        match readFixed 1 (digitChar n :: r) with
        | some vr => some (digitVal (digitChar (n / 10)) * 10 ^ 1 + vr.1, vr.2)
        | none => none
      else none := rfl
  have step2 : readFixed 1 (digitChar n :: r) =
      if (digitChar n).isDigit = true then
        match readFixed 0 r with
        | some vr => some (digitVal (digitChar n) * 10 ^ 0 + vr.1, vr.2)
        | none => none
      else none := rfl
  rw [step1, if_pos h1, step2, if_pos h2]
  show some (digitVal (digitChar (n / 10)) * 10 ^ 1 + (digitVal (digitChar n) * 10 ^ 0 + 0), r) =
    some (n, r)
  have hval : digitVal (digitChar (n / 10)) * 10 ^ 1 + (digitVal (digitChar n) * 10 ^ 0 + 0) = n := by
    rw [digitVal_digitChar, digitVal_digitChar]
    have hq : n / 10 % 10 = n / 10 := by omega
    rw [hq]
    simp only [pow_one, pow_zero, mul_one]
    omega
  rw [hval]

theorem isIso_build (mo da hh mi ss : Nat) (frac : List Char)
    (hmo1 : 1 ≤ mo) (hmo2 : mo ≤ 12) (hda1 : 1 ≤ da) (hda2 : da ≤ 31)
    (hhh : hh ≤ 23) (hmi : mi ≤ 59) (hss : ss ≤ 59)
    (hfrac : frac = [] ∨
      ∃ fs, frac = '.' :: fs ∧ fs ≠ [] ∧ fs.all Char.isDigit = true ∧ fs.length ≤ 6) :
    isIsoDateTime (String.mk ('2' :: '0' :: '2' :: '6' :: '-' ::
      digitChar (mo / 10) :: digitChar mo :: '-' ::
      digitChar (da / 10) :: digitChar da :: 'T' ::
      digitChar (hh / 10) :: digitChar hh :: ':' ::
      digitChar (mi / 10) :: digitChar mi :: ':' ::
      digitChar (ss / 10) :: digitChar ss :: frac)) = true := by
  unfold isIsoDateTime
  have e2026 : ∀ r : List Char, readFixed 4 ('2' :: '0' :: '2' :: '6' :: r) = some (2026, r) :=
    fun r => rfl
  have esep : ∀ (c : Char) (l : List Char), readSep c (c :: l) = some l := by
    intro c l
    simp [readSep]
  have emo := fun r => readFixed_pad2 mo r (by omega)
  have eda := fun r => readFixed_pad2 da r (by omega)
  have ehh := fun r => readFixed_pad2 hh r (by omega)
  have emi := fun r => readFixed_pad2 mi r (by omega)
  have ess := fun r => readFixed_pad2 ss r (by omega)
  simp only [e2026, esep, emo, eda, ehh, emi, ess]
  rcases hfrac with hf | ⟨fs, hf, hfs1, hfs2, hfs3⟩
  · rw [hf]
    simp [hmo1, hmo2, hda1, hda2, hhh, hmi, hss]
  · rw [hf]
    simp [hmo1, hmo2, hda1, hda2, hhh, hmi, hss, hfs1, hfs2, hfs3]

theorem isoformat_valid (t : ℤ) (h0 : 0 ≤ t) (h1 : t < 31536000000000) :
    isIsoDateTime (isoformat t) = true := by
  have hday : t.toNat / 86400000000 < 365 := by omega
  have hrem : t.toNat % 86400000000 < 86400000000 := by omega
  obtain ⟨hm1, hm2, hd1, hd2⟩ := monthDayOf_bounds _ hday
  have hfrac : (if t.toNat % 86400000000 % 1000000 = 0 then ([] : List Char)
      else '.' :: pad6 (t.toNat % 86400000000 % 1000000)) = [] ∨
      ∃ fs, (if t.toNat % 86400000000 % 1000000 = 0 then ([] : List Char)
        else '.' :: pad6 (t.toNat % 86400000000 % 1000000)) = '.' :: fs ∧
        fs ≠ [] ∧ fs.all Char.isDigit = true ∧ fs.length ≤ 6 := by
    by_cases hz : t.toNat % 86400000000 % 1000000 = 0
    · left
      rw [if_pos hz]
    · right
      refine ⟨pad6 (t.toNat % 86400000000 % 1000000), ?_, pad6_ne_nil _, pad6_digits _, pad6_length _⟩
      rw [if_neg hz]
  have := isIso_build (monthDayOf (t.toNat / 86400000000)).1 (monthDayOf (t.toNat / 86400000000)).2
    (t.toNat % 86400000000 / 3600000000)
    (t.toNat % 86400000000 / 60000000 % 60)
    (t.toNat % 86400000000 / 1000000 % 60)
    (if t.toNat % 86400000000 % 1000000 = 0 then []
      else '.' :: pad6 (t.toNat % 86400000000 % 1000000))
    hm1 hm2 hd1 hd2 (by omega) (by omega) (by omega) hfrac
  exact this

theorem startsWith_head (s p : String) (c : Char) (hp : p.data.head? = some c)
    (h : pyStartsWith s p = true) : s.data.head? = some c := by
  unfold pyStartsWith at h
  cases hpd : p.data with
  | nil =>
    rw [hpd] at hp
    simp at hp
  | cons pc ptl =>
    rw [hpd] at hp h
    simp only [List.head?_cons, Option.some.injEq] at hp
    cases hsd : s.data with
    | nil =>
      rw [hsd] at h
      simp [List.isPrefixOf] at h
    | cons sc stl =>
      rw [hsd] at h
      simp only [List.isPrefixOf, Bool.and_eq_true, beq_iff_eq] at h
      rw [List.head?_cons, ← hp, h.1]

theorem worker_not_api (s : String) (h : pyStartsWith s ("worker-") = true) :
    pyStartsWith s ("api-") = false := by
  cases hb : pyStartsWith s ("api-")
  · rfl
  · exfalso
    have h1 := startsWith_head s ("worker-") 'w' (by rfl) h
    have h2 := startsWith_head s ("api-") 'a' (by rfl) hb
    rw [h1] at h2
    simp at h2

theorem cachedb_not_api_worker (s : String)
    (h : (pyStartsWith s ("cache-") || pyStartsWith s ("db-")) = true) :
    pyStartsWith s ("api-") = false ∧ pyStartsWith s ("worker-") = false := by
  have hhead : s.data.head? = some 'c' ∨ s.data.head? = some 'd' := by
    have h2 : pyStartsWith s ("cache-") = true ∨ pyStartsWith s ("db-") = true := by
      simpa using h
    rcases h2 with hc | hd
    · exact Or.inl (startsWith_head s ("cache-") 'c' (by rfl) hc)
    · exact Or.inr (startsWith_head s ("db-") 'd' (by rfl) hd)
  constructor
  · cases hb : pyStartsWith s ("api-")
    · rfl
    · exfalso
      have h2 := startsWith_head s ("api-") 'a' (by rfl) hb
      rcases hhead with h3 | h3 <;> rw [h2] at h3 <;> simp at h3
  · cases hb : pyStartsWith s ("worker-")
    · rfl
    · exfalso
      have h2 := startsWith_head s ("worker-") 'w' (by rfl) hb
      rcases hhead with h3 | h3 <;> rw [h2] at h3 <;> simp at h3

theorem gle_c5core (ts : ℤ) (g : Rng) (h0 : 0 ≤ ts) (h1 : ts < 31536000000000) :
    (∃ lv, lookupF ("level") (generate_log_entry ts g).1 = some (Json.str lv) ∧ lv ∈ LEVELS) ∧
    (∃ sv, lookupF ("service") (generate_log_entry ts g).1 = some (Json.str sv) ∧ sv ∈ SERVICES) ∧
    (∃ t, lookupF ("timestamp") (generate_log_entry ts g).1 = some (Json.str t) ∧
      ∃ pre, t = pre ++ "Z" ∧ isIsoDateTime pre = true) := by
  obtain ⟨level, service, msg, tail1, tail2, gf, heq, hlev, hserv, _, _, _⟩ := gle_parts ts g
  rw [heq]
  simp only [List.append_assoc, List.cons_append, List.nil_append]
  refine ⟨⟨level, ?_, hlev⟩, ⟨service, ?_, hserv⟩,
    ⟨isoformat ts ++ "Z", ?_, isoformat ts, rfl, isoformat_valid ts h0 h1⟩⟩
  · rw [lookupF_cons_ne _ _ _ (show ¬ ("timestamp" : String) = ("level") by decide),
      lookupF_cons_eq _ _ _ (by rfl)]
  · rw [lookupF_cons_ne _ _ _ (show ¬ ("timestamp" : String) = ("service") by decide),
      lookupF_cons_ne _ _ _ (show ¬ ("level" : String) = ("service") by decide),
      lookupF_cons_eq _ _ _ (by rfl)]
  · rw [lookupF_cons_eq _ _ _ (by rfl)]

/-- Claim C5: every generated record has a level among the four fixed strings,
a service among the ten fixed strings, and a timestamp string that ends in the
literal character Z and whose remainder is a valid ISO-8601 date-time. -/
theorem claimC5 (N : ℕ) (g : Rng) (es : List Entry) (h : mainEntries N g = Except.ok es)
    (e : Entry) (he : e ∈ es) :
    (∃ lv, lookupF ("level") e = some (Json.str lv) ∧ lv ∈ LEVELS) ∧
    (∃ sv, lookupF ("service") e = some (Json.str sv) ∧ sv ∈ SERVICES) ∧
    (∃ t, lookupF ("timestamp") e = some (Json.str t) ∧
      ∃ pre, t = pre ++ "Z" ∧ isIsoDateTime pre = true) := by
  rcases Nat.eq_zero_or_pos N with hN0 | hN1
  · exfalso
    subst hN0
    unfold mainEntries mainPairs pydivQ at h
    simp at h
  · have hp := mainPairs_ok N g hN1
    unfold mainEntries at h
    rw [hp] at h
    have hes : es = (mainBody (incUs N) N 0 g).map Prod.snd := by
      simp only [Except.ok.injEq] at h
      exact h.symm
    rw [hes] at he
    obtain ⟨p, hpmem, hpe⟩ := List.mem_map.mp he
    have hmul : ∀ i : ℕ, i < N → incUs N * (i : ℤ) ≤ 172800000000 :=
      fun i hi => incUs_mul_le N i hN1 hi
    obtain ⟨g2, hpe2, hts0, hts1⟩ :=
      mainBody_mem (incUs N) N (incUs_nonneg N) hmul N 0 g (by omega) p hpmem
    rw [← hpe, hpe2]
    exact gle_c5core p.1 g2 hts0 hts1

/-- Claim C5 witness: the single record of a one-record run with the all-zeros
stream satisfies the three field properties. -/
theorem claimC5_witness :
    (∃ lv, lookupF ("level") (firstEntry 1 zeroRng) = some (Json.str lv) ∧ lv ∈ LEVELS) ∧
    (∃ sv, lookupF ("service") (firstEntry 1 zeroRng) = some (Json.str sv) ∧ sv ∈ SERVICES) ∧
    (∃ t, lookupF ("timestamp") (firstEntry 1 zeroRng) = some (Json.str t) ∧
      ∃ pre, t = pre ++ "Z" ∧ isIsoDateTime pre = true) :=
  claimC5 1 zeroRng [firstEntry 1 zeroRng] (by rfl) (firstEntry 1 zeroRng)
    (List.mem_singleton.mpr rfl)

/-- Claim C1: a completed run with record count N at least 1 yields exactly N
records; the output text is, for each record in index order, its JSON
serialization followed by one newline, so splitting the output at newlines
yields the N serialized records in order plus one trailing empty chunk. -/
theorem claimC1 (N : ℕ) (g : Rng) (hN : 1 ≤ N) :
    ∃ es content, mainEntries N g = Except.ok es ∧ fileContent N g = Except.ok content ∧
      es.length = N ∧
      content = concatStr (es.map (fun e => dumpEntry e ++ "\n")) ∧
      lineSplit content.data = es.map (fun e => (dumpEntry e).data) ++ [[]] := by
  have hp := mainPairs_ok N g hN
  have hme : mainEntries N g = Except.ok ((mainBody (incUs N) N 0 g).map Prod.snd) := by
    unfold mainEntries
    rw [hp]
  refine ⟨(mainBody (incUs N) N 0 g).map Prod.snd,
    concatStr (((mainBody (incUs N) N 0 g).map Prod.snd).map (fun e => dumpEntry e ++ "\n")),
    hme, ?_, ?_, rfl, lineSplit_concat _⟩
  · unfold fileContent
    rw [hme]
  · rw [List.length_map]
    exact mainBody_length (incUs N) N 0 g

/-- Claim C1 witness: instantiation at one record and the all-zeros stream. -/
theorem claimC1_witness :
    ∃ es content, mainEntries 1 zeroRng = Except.ok es ∧
      fileContent 1 zeroRng = Except.ok content ∧ es.length = 1 ∧
      content = concatStr (es.map (fun e => dumpEntry e ++ "\n")) ∧
      lineSplit content.data = es.map (fun e => (dumpEntry e).data) ++ [[]] :=
  claimC1 1 zeroRng (by decide)

/-- Claim C7: invoked with num_lines = 0, the program either produces an empty
output file or explicitly rejects the input.  The source rejects it: the
time-increment computation divides 86,400,000 by num_lines and raises
ZeroDivisionError before the output file is opened, so no output is written. -/
theorem claimC7 (g : Rng) :
    fileContent 0 g = Except.ok ("") ∨ ∃ msg, fileContent 0 g = Except.error msg := by
  right
  exact ⟨("ZeroDivisionError: division by zero"), by rfl⟩

/-- Claim C8, as the spec states it, is false on the source: the report-scale
selection never uses the bytes scale.  For a 5-byte file the most relevant
scale among bytes, KB, MB, GB is bytes, but the source reports KB. -/
theorem claimC8_counterexample : ¬ reportScale 5 = specScaleOfSize 5 := by
  decide

/-- Claim C8 (amended): the driver reports the size in KB, MB or GB by the
source's thresholds — GB exactly when the size exceeds 1,000,000,000 bytes, MB
exactly when it exceeds 1,000,000 but not 1,000,000,000, and KB otherwise —
and the bytes scale is never the one reported. -/
theorem claimC8_amended (size : ℕ) :
    (reportScale size = SizeScale.gb ↔ 1000000000 < size) ∧
    (reportScale size = SizeScale.mb ↔ 1000000 < size ∧ size ≤ 1000000000) ∧
    (reportScale size = SizeScale.kb ↔ size ≤ 1000000) ∧
    ¬ reportScale size = SizeScale.bytes := by
  unfold reportScale
  split_ifs with h1 h2 <;> refine ⟨?_, ?_, ?_, ?_⟩ <;> simp <;> omega

theorem gle_s (ts : ℤ) (g : Rng) : ((generate_log_entry ts g).2).s = g.s := by
  obtain ⟨level, service, msg, t1, t2, gf, heq, _, _, _, _, hs⟩ := gle_parts ts g
  rw [heq]
  exact hs

theorem mainBody_get_const (inc : ℤ) (c : Nat) :
    ∀ (k i m : ℕ) (g : Rng), g.s = (fun _ => c) → m < k →
      ∃ e, (mainBody inc k i g).get? m =
        some (startOffset + inc * ((i : ℤ) + (m : ℤ)) + 1000 * (-500 + (c : ℤ) % 1001), e) := by
  intro k
  induction k with
  | zero => intro i m g hs hm; omega
  | succ k ih =>
    intro i m g hs hm
    unfold mainBody
    rcases h1 : randint (-500) 500 g with ⟨j0, g2⟩
    rcases h2 : generate_log_entry (startOffset + inc * (i : ℤ) + 1000 * j0) g2 with ⟨e0, g3⟩
    simp only [h1, h2]
    have hval : (randint (-500) 500 g).1 = -500 + ((g.s g.pos : ℤ)) % 1001 := by
      norm_num [randint, next]
    rw [h1] at hval
    simp only [hs] at hval
    have hg2s : g2.s = (fun _ => c) := (sndS h1 rfl).trans hs
    have hg3s : g3.s = (fun _ => c) := ((sndS h2 (gle_s _ g2)).trans hg2s)
    cases m with
    | zero =>
      refine ⟨e0, ?_⟩
      simp [hval]
    | succ m =>
      obtain ⟨e, hg⟩ := ih (i + 1) m g3 hg3s (by omega)
      refine ⟨e, ?_⟩
      have hcast : ((i + 1 : ℕ) : ℤ) + (m : ℤ) = (i : ℤ) + ((m + 1 : ℕ) : ℤ) := by
        push_cast
        ring
      rw [hcast] at hg
      simpa using hg

theorem incUs_seven : incUs 7 = 12342857143 := by
  have hq : (86400000000 : ℚ) / (((7 : ℕ)) : ℚ) = 86400000000 / 7 := by norm_num
  unfold incUs roundHalfEven
  rw [hq]
  have hfl : Int.floor ((86400000000 : ℚ) / 7) = 12342857142 := by
    rw [Int.floor_eq_iff]
    constructor <;> norm_num
  rw [hfl]
  rw [if_neg (by norm_num), if_pos (by norm_num)]
  norm_num

/-- Claim C2, as stated, is false on the source: the code multiplies the
per-record increment after rounding it to a whole number of microseconds
(the resolution of timedelta), rather than multiplying the exact quotient
86,400,000/N.  For N = 7 and index 1 under the all-zeros stream, the recorded
timestamp (epoch + 12,342,857,143 us - 500 ms) differs from every value of the
claimed form epoch + 1 * (86,400,000/7) ms + j ms with j an integer in
[-500, 500], because the mismatch 1/7 us cannot be absorbed by whole-millisecond
jitter. -/
theorem claimC2_counterexample :
    ∃ (ps : List (ℤ × Entry)) (ts : ℤ) (e : Entry),
      mainPairs 7 zeroRng = Except.ok ps ∧ ps[1]? = some (ts, e) ∧
      ¬ ∃ j : ℤ, -500 ≤ j ∧ j ≤ 500 ∧
        ((ts : ℚ) =
          ((startOffset : ℤ) : ℚ) + (1 : ℚ) * (86400000000 / (7 : ℚ)) + 1000 * (j : ℚ)) := by
  obtain ⟨e, hg⟩ := mainBody_get_const (incUs 7) 0 7 0 1 zeroRng rfl (by omega)
  norm_num [incUs_seven, startOffset] at hg
  have hok := mainPairs_ok 7 zeroRng (by omega)
  rw [incUs_seven] at hok
  refine ⟨mainBody 12342857143 7 0 zeroRng, 2604342357143, e, hok, hg, ?_⟩
  rintro ⟨j, hj1, hj2, hj3⟩
  have hs0 : ((startOffset : ℤ) : ℚ) = 2592000000000 := by norm_num [startOffset]
  rw [hs0] at hj3
  push_cast at hj3
  have h7 : (7000 : ℚ) * (j : ℚ) = -3499999 := by
    field_simp at hj3
    linarith
  have hz : (7000 : ℤ) * j = -3499999 := by exact_mod_cast h7
  omega

/-- Claim C2 (amended): for every N at least 1 and every index i below N, the
i-th record's timestamp equals the fixed epoch 2026-01-31T00:00:00 plus
i times the per-record increment — 86,400,000/N milliseconds rounded to a whole
number of microseconds, ties to even, which is the value the source's timedelta
stores — plus a jitter of j milliseconds with j drawn from [-500, 500]. -/
theorem claimC2_amended (N : ℕ) (g : Rng) (hN : 1 ≤ N) (i : ℕ) (hi : i < N) :
    ∃ ps j e, mainPairs N g = Except.ok ps ∧ -500 ≤ j ∧ j ≤ 500 ∧
      ps.get? i = some (startOffset + incUs N * (i : ℤ) + 1000 * j, e) := by
  obtain ⟨j, e, h1, h2, h3⟩ := mainBody_get (incUs N) N 0 i g hi
  refine ⟨mainBody (incUs N) N 0 g, j, e, mainPairs_ok N g hN, h1, h2, ?_⟩
  simpa using h3

/-- Claim C2 witness: instantiation at N = 1, index 0, all-zeros stream. -/
theorem claimC2_witness :
    ∃ ps j e, mainPairs 1 zeroRng = Except.ok ps ∧ -500 ≤ j ∧ j ≤ 500 ∧
      ps.get? 0 = some (startOffset + incUs 1 * (0 : ℤ) + 1000 * j, e) :=
  claimC2_amended 1 zeroRng (by decide) 0 (by decide)

/-- Claim C10, as stated, is false on the source: the nominal schedule the code
follows uses the increment rounded to whole microseconds, so for N = 7, index 1
and jitter +500 ms (the constant-1000 stream makes every jitter draw +500), the
deviation of the timestamp from epoch + 1 * (86,400,000/7) ms is
500,000 + 1/7 microseconds, just above the claimed 500 ms bound. -/
theorem claimC10_counterexample :
    ∃ (ps : List (ℤ × Entry)) (ts : ℤ) (e : Entry),
      mainPairs 7 maxRng = Except.ok ps ∧ ps[1]? = some (ts, e) ∧
      ¬ |(ts : ℚ) - (((startOffset : ℤ) : ℚ) + (1 : ℚ) * (86400000000 / (7 : ℚ)))| ≤
        500000 := by
  obtain ⟨e, hg⟩ := mainBody_get_const (incUs 7) 1000 7 0 1 maxRng rfl (by omega)
  norm_num [incUs_seven, startOffset] at hg
  have hok := mainPairs_ok 7 maxRng (by omega)
  rw [incUs_seven] at hok
  refine ⟨mainBody 12342857143 7 0 maxRng, 2604343357143, e, hok, hg, ?_⟩
  intro habs
  rw [abs_le] at habs
  obtain ⟨_, h2⟩ := habs
  have hs0 : ((startOffset : ℤ) : ℚ) = 2592000000000 := by norm_num [startOffset]
  rw [hs0] at h2
  push_cast at h2
  have : (3500001 : ℚ) ≤ 3500000 := by
    field_simp at h2
    linarith
  norm_num at this

/-- Claim C10 (amended): with the per-record increment as the source stores it
(86,400,000/N ms rounded to whole microseconds, ties to even), every timestamp
deviates from its nominal value epoch + i * increment by at most 500 ms;
consecutive timestamps differ by at least increment - 1000 ms; and whenever
86,400,000/N exceeds 1000 ms the timestamp sequence is strictly increasing. -/
theorem claimC10_amended (N : ℕ) (g : Rng) (hN : 1 ≤ N) :
    ∃ ps, mainPairs N g = Except.ok ps ∧
      (∀ i : ℕ, ∀ ts e, ps.get? i = some (ts, e) →
        |ts - (startOffset + incUs N * (i : ℤ))| ≤ 500000) ∧
      (∀ i : ℕ, ∀ ts e ts2 e2, ps.get? i = some (ts, e) → ps.get? (i + 1) = some (ts2, e2) →
        incUs N - 1000000 ≤ ts2 - ts) ∧
      ((1000 : ℚ) < 86400000 / (N : ℚ) →
        ∀ i : ℕ, ∀ ts e ts2 e2, ps.get? i = some (ts, e) → ps.get? (i + 1) = some (ts2, e2) →
          ts < ts2) := by
  have hlen := mainBody_length (incUs N) N 0 g
  have hidx : ∀ i : ℕ, ∀ ts : ℤ, ∀ e : Entry,
      (mainBody (incUs N) N 0 g).get? i = some (ts, e) → i < N := by
    intro i ts e hget
    by_contra hge
    push_neg at hge
    rw [List.get?_eq_none.mpr (by rw [hlen]; omega)] at hget
    exact absurd hget (by simp)
  have hval : ∀ i : ℕ, ∀ ts : ℤ, ∀ e : Entry,
      (mainBody (incUs N) N 0 g).get? i = some (ts, e) →
      ∃ j : ℤ, -500 ≤ j ∧ j ≤ 500 ∧ ts = startOffset + incUs N * (i : ℤ) + 1000 * j := by
    intro i ts e hget
    obtain ⟨j, e2, hj1, hj2, hg⟩ := mainBody_get (incUs N) N 0 i g (hidx i ts e hget)
    rw [hg] at hget
    simp only [Option.some.injEq, Prod.mk.injEq] at hget
    refine ⟨j, hj1, hj2, ?_⟩
    rw [← hget.1]
    norm_num
  refine ⟨mainBody (incUs N) N 0 g, mainPairs_ok N g hN, ?_, ?_, ?_⟩
  · intro i ts e hget
    obtain ⟨j, hj1, hj2, hts⟩ := hval i ts e hget
    rw [abs_le]
    constructor <;> omega
  · intro i ts e ts2 e2 h1 h2
    obtain ⟨j1, hj11, hj12, hts1⟩ := hval i ts e h1
    obtain ⟨j2, hj21, hj22, hts2⟩ := hval (i + 1) ts2 e2 h2
    have hrw : incUs N * ((i : ℤ) + 1) = incUs N * (i : ℤ) + incUs N := by ring
    rw [show ((i + 1 : ℕ) : ℤ) = (i : ℤ) + 1 by push_cast; ring, hrw] at hts2
    generalize hX : incUs N * (i : ℤ) = X at hts1 hts2
    omega
  · intro hq i ts e ts2 e2 h1 h2
    have hNlt : N < 86400 := by
      by_contra hge
      push_neg at hge
      have hNq : (0 : ℚ) < (N : ℚ) := by exact_mod_cast (by omega : 0 < N)
      have hle : (86400000 : ℚ) / (N : ℚ) ≤ 1000 := by
        rw [div_le_iff₀ hNq]
        have h86 : (86400 : ℚ) ≤ (N : ℚ) := by exact_mod_cast hge
        linarith
      linarith
    have hinc : 1000000 < incUs N := by
      have hNq : (0 : ℚ) < (N : ℚ) := by exact_mod_cast (by omega : 0 < N)
      have h1q : (1000011 : ℚ) ≤ 86400000000 / (N : ℚ) := by
        rw [le_div_iff₀ hNq]
        have hN9 : (N : ℚ) ≤ 86399 := by exact_mod_cast (by omega : N ≤ 86399)
        nlinarith
      have h2q := incUs_ge N
      have h3q : (1000000 : ℚ) < ((incUs N : ℤ) : ℚ) := by linarith
      exact_mod_cast h3q
    obtain ⟨j1, hj11, hj12, hts1⟩ := hval i ts e h1
    obtain ⟨j2, hj21, hj22, hts2⟩ := hval (i + 1) ts2 e2 h2
    have hrw : incUs N * ((i : ℤ) + 1) = incUs N * (i : ℤ) + incUs N := by ring
    rw [show ((i + 1 : ℕ) : ℤ) = (i : ℤ) + 1 by push_cast; ring, hrw] at hts2
    generalize hX : incUs N * (i : ℤ) = X at hts1 hts2
    omega

/-- Claim C10 witness: instantiation at N = 1 and the all-zeros stream. -/
theorem claimC10_witness :
    ∃ ps, mainPairs 1 zeroRng = Except.ok ps ∧
      (∀ i : ℕ, ∀ ts e, ps.get? i = some (ts, e) →
        |ts - (startOffset + incUs 1 * (i : ℤ))| ≤ 500000) ∧
      (∀ i : ℕ, ∀ ts e ts2 e2, ps.get? i = some (ts, e) → ps.get? (i + 1) = some (ts2, e2) →
        incUs 1 - 1000000 ≤ ts2 - ts) ∧
      ((1000 : ℚ) < 86400000 / ((1 : ℕ) : ℚ) →
        ∀ i : ℕ, ∀ ts e ts2 e2, ps.get? i = some (ts, e) → ps.get? (i + 1) = some (ts2, e2) →
          ts < ts2) :=
  claimC10_amended 1 zeroRng (by decide)

/-- Claim C3: in every generated record whose service starts with api-, the
latency field is an integer in [500, 5000] when the level is warn and in
[1, 500] otherwise. -/
theorem claimC3 (ts : ℤ) (g : Rng) (sv : String)
    (hsv : lookupF ("service") (generate_log_entry ts g).1 = some (Json.str sv))
    (hapi : pyStartsWith sv ("api-") = true) :
    ∃ lat : ℤ, lookupF ("latency") (generate_log_entry ts g).1 = some (Json.int lat) ∧
      (lookupF ("level") (generate_log_entry ts g).1 = some (Json.str ("warn")) →
        500 ≤ lat ∧ lat ≤ 5000) ∧
      (¬ lookupF ("level") (generate_log_entry ts g).1 = some (Json.str ("warn")) →
        1 ≤ lat ∧ lat ≤ 500) := by
  obtain ⟨level, service, msg, tail1, tail2, gf, heq, hlev, hserv, ⟨gB, hb⟩, _, _⟩ :=
    gle_parts ts g
  rw [heq] at hsv ⊢
  simp only [List.append_assoc, List.cons_append, List.nil_append] at hsv ⊢
  rw [lookupF_cons_ne _ _ _ (show ¬ ("timestamp" : String) = ("service") by decide),
      lookupF_cons_ne _ _ _ (show ¬ ("level" : String) = ("service") by decide),
      lookupF_cons_eq _ _ _ (by rfl)] at hsv
  simp only [Option.some.injEq, Json.str.injEq] at hsv
  rw [← hsv] at hapi
  obtain ⟨tailB, gfB, heqB, hkeys, hapiShape, _, _, _⟩ := branchFields_shape level service gB
  have htail : tailB = tail1 := by
    rw [heqB] at hb
    exact hb
  obtain ⟨pathV, methodV, lat, st, t1, t2, htail1, hst, hw1, hw2, ht1, ht2⟩ := hapiShape hapi
  rw [htail] at htail1
  subst htail1
  simp only [List.append_assoc, List.cons_append, List.nil_append]
  have hlevLk : lookupF ("level")
      ((("timestamp"), Json.str (isoformat ts ++ "Z")) :: (("level"), Json.str level) ::
        (("service"), Json.str service) :: (("msg"), Json.str msg) ::
        ((("path"), Json.str pathV) :: (("method"), Json.str methodV) ::
          (("latency"), Json.int lat) :: (("status"), Json.int st) ::
          (t1 ++ (t2 ++ tail2)))) = some (Json.str level) := by
    rw [lookupF_cons_ne _ _ _ (show ¬ ("timestamp" : String) = ("level") by decide),
        lookupF_cons_eq _ _ _ (by rfl)]
  refine ⟨lat, ?_, ?_, ?_⟩
  · rw [lookupF_cons_ne _ _ _ (show ¬ ("timestamp" : String) = ("latency") by decide),
        lookupF_cons_ne _ _ _ (show ¬ ("level" : String) = ("latency") by decide),
        lookupF_cons_ne _ _ _ (show ¬ ("service" : String) = ("latency") by decide),
        lookupF_cons_ne _ _ _ (show ¬ ("msg" : String) = ("latency") by decide),
        lookupF_cons_ne _ _ _ (show ¬ ("path" : String) = ("latency") by decide),
        lookupF_cons_ne _ _ _ (show ¬ ("method" : String) = ("latency") by decide),
        lookupF_cons_eq _ _ _ (by rfl)]
  · intro hL
    rw [hlevLk] at hL
    simp only [Option.some.injEq, Json.str.injEq] at hL
    exact hw1 hL
  · intro hL
    apply hw2
    intro hlv
    apply hL
    rw [hlevLk, hlv]

/-- Claim C3 witness: instantiation at the epoch timestamp and the all-zeros
stream, whose service draw is api-gateway. -/
theorem claimC3_witness :
    ∃ lat : ℤ,
      lookupF ("latency") (generate_log_entry startOffset zeroRng).1 = some (Json.int lat) ∧
      (lookupF ("level") (generate_log_entry startOffset zeroRng).1 = some (Json.str ("warn")) →
        500 ≤ lat ∧ lat ≤ 5000) ∧
      (¬ lookupF ("level") (generate_log_entry startOffset zeroRng).1 =
          some (Json.str ("warn")) →
        1 ≤ lat ∧ lat ≤ 500) :=
  claimC3 startOffset zeroRng ("api-gateway") (by rfl) (by decide)

/-- Claim C4: every generated record whose service starts with api- contains
path, method, latency (an integer) and status, and status belongs to the fixed
status-code set of the record's level. -/
theorem claimC4 (ts : ℤ) (g : Rng) (sv : String)
    (hsv : lookupF ("service") (generate_log_entry ts g).1 = some (Json.str sv))
    (hapi : pyStartsWith sv ("api-") = true) :
    (∃ p, lookupF ("path") (generate_log_entry ts g).1 = some (Json.str p)) ∧
    (∃ m, lookupF ("method") (generate_log_entry ts g).1 = some (Json.str m)) ∧
    (∃ lat : ℤ, lookupF ("latency") (generate_log_entry ts g).1 = some (Json.int lat)) ∧
    ∃ lv st, lookupF ("level") (generate_log_entry ts g).1 = some (Json.str lv) ∧
      lookupF ("status") (generate_log_entry ts g).1 = some (Json.int st) ∧
      (lv = ("debug") → st ∈ ([200] : List ℤ)) ∧
      (lv = ("info") → st ∈ ([200, 201, 204] : List ℤ)) ∧
      (lv = ("warn") → st ∈ ([400, 401, 403, 404, 429] : List ℤ)) ∧
      (lv = ("error") → st ∈ ([500, 502, 503, 504, 400, 401, 403] : List ℤ)) := by
  obtain ⟨level, service, msg, tail1, tail2, gf, heq, hlev, hserv, ⟨gB, hb⟩, _, _⟩ :=
    gle_parts ts g
  rw [heq] at hsv ⊢
  simp only [List.append_assoc, List.cons_append, List.nil_append] at hsv ⊢
  rw [lookupF_cons_ne _ _ _ (show ¬ ("timestamp" : String) = ("service") by decide),
      lookupF_cons_ne _ _ _ (show ¬ ("level" : String) = ("service") by decide),
      lookupF_cons_eq _ _ _ (by rfl)] at hsv
  simp only [Option.some.injEq, Json.str.injEq] at hsv
  rw [← hsv] at hapi
  obtain ⟨tailB, gfB, heqB, hkeys, hapiShape, _, _, _⟩ := branchFields_shape level service gB
  have htail : tailB = tail1 := by
    rw [heqB] at hb
    exact hb
  obtain ⟨pathV, methodV, lat, st, t1, t2, htail1, hst, hw1, hw2, ht1, ht2⟩ := hapiShape hapi
  rw [htail] at htail1
  subst htail1
  simp only [List.append_assoc, List.cons_append, List.nil_append]
  refine ⟨⟨pathV, ?_⟩, ⟨methodV, ?_⟩, ⟨lat, ?_⟩, level, st, ?_, ?_, ?_, ?_, ?_, ?_⟩
  · rw [lookupF_cons_ne _ _ _ (show ¬ ("timestamp" : String) = ("path") by decide),
        lookupF_cons_ne _ _ _ (show ¬ ("level" : String) = ("path") by decide),
        lookupF_cons_ne _ _ _ (show ¬ ("service" : String) = ("path") by decide),
        lookupF_cons_ne _ _ _ (show ¬ ("msg" : String) = ("path") by decide),
        lookupF_cons_eq _ _ _ (by rfl)]
  · rw [lookupF_cons_ne _ _ _ (show ¬ ("timestamp" : String) = ("method") by decide),
        lookupF_cons_ne _ _ _ (show ¬ ("level" : String) = ("method") by decide),
        lookupF_cons_ne _ _ _ (show ¬ ("service" : String) = ("method") by decide),
        lookupF_cons_ne _ _ _ (show ¬ ("msg" : String) = ("method") by decide),
        lookupF_cons_ne _ _ _ (show ¬ ("path" : String) = ("method") by decide),
        lookupF_cons_eq _ _ _ (by rfl)]
  · rw [lookupF_cons_ne _ _ _ (show ¬ ("timestamp" : String) = ("latency") by decide),
        lookupF_cons_ne _ _ _ (show ¬ ("level" : String) = ("latency") by decide),
        lookupF_cons_ne _ _ _ (show ¬ ("service" : String) = ("latency") by decide),
        lookupF_cons_ne _ _ _ (show ¬ ("msg" : String) = ("latency") by decide),
        lookupF_cons_ne _ _ _ (show ¬ ("path" : String) = ("latency") by decide),
        lookupF_cons_ne _ _ _ (show ¬ ("method" : String) = ("latency") by decide),
        lookupF_cons_eq _ _ _ (by rfl)]
  · rw [lookupF_cons_ne _ _ _ (show ¬ ("timestamp" : String) = ("level") by decide),
        lookupF_cons_eq _ _ _ (by rfl)]
  · rw [lookupF_cons_ne _ _ _ (show ¬ ("timestamp" : String) = ("status") by decide),
        lookupF_cons_ne _ _ _ (show ¬ ("level" : String) = ("status") by decide),
        lookupF_cons_ne _ _ _ (show ¬ ("service" : String) = ("status") by decide),
        lookupF_cons_ne _ _ _ (show ¬ ("msg" : String) = ("status") by decide),
        lookupF_cons_ne _ _ _ (show ¬ ("path" : String) = ("status") by decide),
        lookupF_cons_ne _ _ _ (show ¬ ("method" : String) = ("status") by decide),
        lookupF_cons_ne _ _ _ (show ¬ ("latency" : String) = ("status") by decide),
        lookupF_cons_eq _ _ _ (by rfl)]
  · intro hlv
    rw [hlv] at hst
    simpa [STATUS_CODES] using hst
  · intro hlv
    rw [hlv] at hst
    simpa [STATUS_CODES] using hst
  · intro hlv
    rw [hlv] at hst
    simpa [STATUS_CODES] using hst
  · intro hlv
    rw [hlv] at hst
    simpa [STATUS_CODES] using hst

/-- Claim C4 witness: instantiation at the epoch timestamp and the all-zeros
stream, whose service draw is api-gateway. -/
theorem claimC4_witness :
    (∃ p, lookupF ("path") (generate_log_entry startOffset zeroRng).1 = some (Json.str p)) ∧
    (∃ m, lookupF ("method") (generate_log_entry startOffset zeroRng).1 = some (Json.str m)) ∧
    (∃ lat : ℤ,
      lookupF ("latency") (generate_log_entry startOffset zeroRng).1 = some (Json.int lat)) ∧
    ∃ lv st, lookupF ("level") (generate_log_entry startOffset zeroRng).1 = some (Json.str lv) ∧
      lookupF ("status") (generate_log_entry startOffset zeroRng).1 = some (Json.int st) ∧
      (lv = ("debug") → st ∈ ([200] : List ℤ)) ∧
      (lv = ("info") → st ∈ ([200, 201, 204] : List ℤ)) ∧
      (lv = ("warn") → st ∈ ([400, 401, 403, 404, 429] : List ℤ)) ∧
      (lv = ("error") → st ∈ ([500, 502, 503, 504, 400, 401, 403] : List ℤ)) :=
  claimC4 startOffset zeroRng ("api-gateway") (by rfl) (by decide)

theorem hex8_length (n : Nat) : (hex8 n).length = 8 := rfl

theorem hex8_lhex (n : Nat) : ∀ c ∈ hex8 n, isLowerHex c = true := by
  intro c hc
  simp only [hex8, List.mem_cons, List.not_mem_nil, or_false] at hc
  rcases hc with h | h | h | h | h | h | h | h <;> rw [h] <;> exact hexDigitChar_lhex _

theorem mkStr_length (l : List Char) : (String.mk l).length = l.length := rfl

theorem optional_tail_keys (t1O t2O : Entry)
    (hs1 : t1O = [] ∨ ∃ ob, t1O = [(("request"), Json.obj ob)])
    (hs2 : t2O = [] ∨ ∃ a b c : Nat,
      t2O = [(("trace_id"), Json.str (String.mk (hex8 a ++ hex8 b))),
        (("span_id"), Json.str (String.mk (hex8 c)))]) :
    ∀ kv ∈ t1O ++ t2O,
      kv.1 = ("request") ∨ kv.1 = ("trace_id") ∨ kv.1 = ("span_id") := by
  intro kv hkv
  rcases List.mem_append.mp hkv with hm | hm
  · rcases hs1 with h | ⟨ob, h⟩
    · rw [h] at hm
      simp at hm
    · rw [h] at hm
      left
      rw [List.mem_singleton.mp hm]
  · rcases hs2 with h | ⟨a, b, c, h⟩
    · rw [h] at hm
      simp at hm
    · rw [h] at hm
      rcases List.mem_cons.mp hm with h2 | h2
      · right; left; rw [h2]
      · right; right
        rw [List.mem_singleton.mp h2]

/-- Claim C9: trace_id is present exactly when span_id is; when present,
trace_id is 16 lowercase hexadecimal digits and span_id is 8. -/
theorem claimC9 (ts : ℤ) (g : Rng) :
    ((∃ v, lookupF ("trace_id") (generate_log_entry ts g).1 = some v) ↔
      (∃ v, lookupF ("span_id") (generate_log_entry ts g).1 = some v)) ∧
    (∀ s2, lookupF ("trace_id") (generate_log_entry ts g).1 = some (Json.str s2) →
      s2.length = 16 ∧ ∀ c ∈ s2.data, isLowerHex c = true) ∧
    (∀ s2, lookupF ("span_id") (generate_log_entry ts g).1 = some (Json.str s2) →
      s2.length = 8 ∧ ∀ c ∈ s2.data, isLowerHex c = true) := by
  obtain ⟨level, service, msg, tail1, tail2, gf, heq, hlev, hserv, ⟨gB, hb⟩, ⟨gO, ho⟩, _⟩ :=
    gle_parts ts g
  rw [heq]
  simp only [List.append_assoc, List.cons_append, List.nil_append]
  obtain ⟨tailB, gfB, heqB, hkeys, _, _, _, _⟩ := branchFields_shape level service gB
  have hbt : tailB = tail1 := by
    rw [heqB] at hb
    exact hb
  have htail1 : ∀ kv ∈ tail1, kv.1 ∈
      [("path"), ("method"), ("latency"), ("status"), ("user_id"), ("order_id"), ("amount"),
       ("batch_size"), ("processed"), ("template"), ("channel"),
       ("connections"), ("queries_per_sec"), ("queue_depth")] := by
    intro kv hkv
    exact hkeys kv (hbt ▸ hkv)
  obtain ⟨t1O, t2O, gfO, heqO, hs1, hs2, _⟩ := optionalFields_shape gO
  have ht2 : tail2 = t1O ++ t2O := by
    rw [heqO] at ho
    exact ho.symm
  subst ht2
  have htr1 : lookupF ("trace_id") tail1 = none := by
    apply lookupF_none_keys
    intro kv hkv hc
    have := htail1 kv hkv
    rw [hc] at this
    exact absurd this (by decide)
  have hsp1 : lookupF ("span_id") tail1 = none := by
    apply lookupF_none_keys
    intro kv hkv hc
    have := htail1 kv hkv
    rw [hc] at this
    exact absurd this (by decide)
  have htrR : lookupF ("trace_id") t1O = none := by
    rcases hs1 with h | ⟨ob, h⟩ <;> rw [h]
    · rfl
    · rw [lookupF_cons_ne _ _ _ (show ¬ ("request" : String) = ("trace_id") by decide)]
      rfl
  have hspR : lookupF ("span_id") t1O = none := by
    rcases hs1 with h | ⟨ob, h⟩ <;> rw [h]
    · rfl
    · rw [lookupF_cons_ne _ _ _ (show ¬ ("request" : String) = ("span_id") by decide)]
      rfl
  have hbase : ∀ k : String, ¬ ("timestamp" : String) = k → ¬ ("level" : String) = k →
      ¬ ("service" : String) = k → ¬ ("msg" : String) = k →
      lookupF k tail1 = none → lookupF k t1O = none →
      lookupF k ((("timestamp"), Json.str (isoformat ts ++ "Z")) ::
        (("level"), Json.str level) :: (("service"), Json.str service) ::
        (("msg"), Json.str msg) :: (tail1 ++ (t1O ++ t2O))) = lookupF k t2O := by
    intro k h1 h2 h3 h4 h5 h6
    rw [lookupF_cons_ne _ _ _ h1, lookupF_cons_ne _ _ _ h2, lookupF_cons_ne _ _ _ h3,
      lookupF_cons_ne _ _ _ h4, lookupF_append_none _ _ _ h5, lookupF_append_none _ _ _ h6]
  have htrE := hbase ("trace_id") (by decide) (by decide) (by decide) (by decide) htr1 htrR
  have hspE := hbase ("span_id") (by decide) (by decide) (by decide) (by decide) hsp1 hspR
  rcases hs2 with h | ⟨a, b, c, h⟩
  · subst h
    refine ⟨?_, ?_, ?_⟩
    · rw [htrE, hspE]
      simp [lookupF]
    · intro s2 hgot
      rw [htrE] at hgot
      exact absurd hgot (by simp [lookupF])
    · intro s2 hgot
      rw [hspE] at hgot
      exact absurd hgot (by simp [lookupF])
  · subst h
    have htrV : lookupF ("trace_id")
        ([(("trace_id"), Json.str (String.mk (hex8 a ++ hex8 b))),
          (("span_id"), Json.str (String.mk (hex8 c)))] : Entry) =
        some (Json.str (String.mk (hex8 a ++ hex8 b))) := by
      rw [lookupF_cons_eq _ _ _ (by rfl)]
    have hspV : lookupF ("span_id")
        ([(("trace_id"), Json.str (String.mk (hex8 a ++ hex8 b))),
          (("span_id"), Json.str (String.mk (hex8 c)))] : Entry) =
        some (Json.str (String.mk (hex8 c))) := by
      rw [lookupF_cons_ne _ _ _ (show ¬ ("trace_id" : String) = ("span_id") by decide),
        lookupF_cons_eq _ _ _ (by rfl)]
    refine ⟨?_, ?_, ?_⟩
    · rw [htrE, hspE, htrV, hspV]
      constructor
      · intro _
        exact ⟨Json.str (String.mk (hex8 c)), rfl⟩
      · intro _
        exact ⟨Json.str (String.mk (hex8 a ++ hex8 b)), rfl⟩
    · intro s2 hgot
      rw [htrE, htrV] at hgot
      simp only [Option.some.injEq, Json.str.injEq] at hgot
      rw [← hgot]
      constructor
      · rw [mkStr_length]
        simp [List.length_append, hex8_length]
      · intro ch hch
        have hch2 : ch ∈ hex8 a ++ hex8 b := hch
        rcases List.mem_append.mp hch2 with hm | hm
        · exact hex8_lhex a ch hm
        · exact hex8_lhex b ch hm
    · intro s2 hgot
      rw [hspE, hspV] at hgot
      simp only [Option.some.injEq, Json.str.injEq] at hgot
      rw [← hgot]
      constructor
      · rw [mkStr_length]
        exact hex8_length c
      · intro ch hch
        have hch2 : ch ∈ hex8 c := hch
        exact hex8_lhex c ch hch2

/-- Claim C9 witness: the presence equivalence at the epoch timestamp and the
all-zeros stream. -/
theorem claimC9_witness :
    (∃ v, lookupF ("trace_id") (generate_log_entry startOffset zeroRng).1 = some v) ↔
      (∃ v, lookupF ("span_id") (generate_log_entry startOffset zeroRng).1 = some v) :=
  (claimC9 startOffset zeroRng).1

/-- Claim C6: worker- records contain batch_size and processed, with template
exactly when the service name contains email and channel exactly when it
contains notifications; cache and db records contain connections and
queries_per_sec, with queue_depth exactly when the level is warn or error. -/
theorem claimC6 (ts : ℤ) (g : Rng) (sv : String)
    (hsv : lookupF ("service") (generate_log_entry ts g).1 = some (Json.str sv)) :
    (pyStartsWith sv ("worker-") = true →
      (∃ b : ℤ, lookupF ("batch_size") (generate_log_entry ts g).1 = some (Json.int b)) ∧
      (∃ p : ℤ, lookupF ("processed") (generate_log_entry ts g).1 = some (Json.int p)) ∧
      ((∃ v, lookupF ("template") (generate_log_entry ts g).1 = some v) ↔
        pyContains sv ("email") = true) ∧
      ((∃ v, lookupF ("channel") (generate_log_entry ts g).1 = some v) ↔
        pyContains sv ("notifications") = true)) ∧
    ((pyStartsWith sv ("cache-") || pyStartsWith sv ("db-")) = true →
      (∃ cn : ℤ, lookupF ("connections") (generate_log_entry ts g).1 = some (Json.int cn)) ∧
      (∃ qs : ℤ, lookupF ("queries_per_sec") (generate_log_entry ts g).1 = some (Json.int qs)) ∧
      ∃ lv, lookupF ("level") (generate_log_entry ts g).1 = some (Json.str lv) ∧
        ((∃ v, lookupF ("queue_depth") (generate_log_entry ts g).1 = some v) ↔
          (lv = ("warn") ∨ lv = ("error")))) := by
  obtain ⟨level, service, msg, tail1, tail2, gf, heq, hlev, hserv, ⟨gB, hb⟩, ⟨gO, ho⟩, _⟩ :=
    gle_parts ts g
  rw [heq] at hsv ⊢
  simp only [List.append_assoc, List.cons_append, List.nil_append] at hsv ⊢
  rw [lookupF_cons_ne _ _ _ (show ¬ ("timestamp" : String) = ("service") by decide),
      lookupF_cons_ne _ _ _ (show ¬ ("level" : String) = ("service") by decide),
      lookupF_cons_eq _ _ _ (by rfl)] at hsv
  simp only [Option.some.injEq, Json.str.injEq] at hsv
  subst hsv
  obtain ⟨tailB, gfB, heqB, hkeys, hapiS, hworkS, hdbS, hsB⟩ := branchFields_shape level service gB
  have hbt : tailB = tail1 := by
    rw [heqB] at hb
    exact hb
  obtain ⟨t1O, t2O, gfO, heqO, hs1, hs2, _⟩ := optionalFields_shape gO
  have ht2 : tail2 = t1O ++ t2O := by
    rw [heqO] at ho
    exact ho.symm
  subst ht2
  have htailOpt := optional_tail_keys t1O t2O hs1 hs2
  have hONone : ∀ k : String, ¬ k = ("request") → ¬ k = ("trace_id") → ¬ k = ("span_id") →
      lookupF k (t1O ++ t2O) = none := by
    intro k h1 h2 h3
    apply lookupF_none_keys
    intro kv hkv hc
    rcases htailOpt kv hkv with h | h | h
    · rw [hc] at h
      exact h1 h
    · rw [hc] at h
      exact h2 h
    · rw [hc] at h
      exact h3 h
  constructor
  · intro hwk
    have hapi0 := worker_not_api service hwk
    obtain ⟨bs, pr, t, c, htailW, hb1, hb2, hp1, hp2⟩ := hworkS hapi0 hwk
    have htail1e : tail1 = (([(("batch_size"), Json.int bs), (("processed"), Json.int pr)] ++
        (if pyContains service ("email") = true then [(("template"), Json.str t)] else [])) ++
        (if pyContains service ("notifications") = true then [(("channel"), Json.str c)] else [])) :=
      hbt.symm.trans htailW
    rw [htail1e]
    simp only [List.append_assoc, List.cons_append, List.nil_append]
    have hEkeys : ∀ kv ∈ (if pyContains service ("email") = true
        then ([(("template"), Json.str t)] : Entry) else []), kv.1 = ("template") := by
      by_cases he : pyContains service ("email") = true
      · rw [if_pos he]
        intro kv hkv
        rw [List.mem_singleton.mp hkv]
      · rw [if_neg he]
        intro kv hkv
        simp at hkv
    have hNkeys : ∀ kv ∈ (if pyContains service ("notifications") = true
        then ([(("channel"), Json.str c)] : Entry) else []), kv.1 = ("channel") := by
      by_cases hn : pyContains service ("notifications") = true
      · rw [if_pos hn]
        intro kv hkv
        rw [List.mem_singleton.mp hkv]
      · rw [if_neg hn]
        intro kv hkv
        simp at hkv
    refine ⟨⟨bs, ?_⟩, ⟨pr, ?_⟩, ?_, ?_⟩
    · rw [lookupF_cons_ne _ _ _ (show ¬ ("timestamp" : String) = ("batch_size") by decide),
          lookupF_cons_ne _ _ _ (show ¬ ("level" : String) = ("batch_size") by decide),
          lookupF_cons_ne _ _ _ (show ¬ ("service" : String) = ("batch_size") by decide),
          lookupF_cons_ne _ _ _ (show ¬ ("msg" : String) = ("batch_size") by decide),
          lookupF_cons_eq _ _ _ (by rfl)]
    · rw [lookupF_cons_ne _ _ _ (show ¬ ("timestamp" : String) = ("processed") by decide),
          lookupF_cons_ne _ _ _ (show ¬ ("level" : String) = ("processed") by decide),
          lookupF_cons_ne _ _ _ (show ¬ ("service" : String) = ("processed") by decide),
          lookupF_cons_ne _ _ _ (show ¬ ("msg" : String) = ("processed") by decide),
          lookupF_cons_ne _ _ _ (show ¬ ("batch_size" : String) = ("processed") by decide),
          lookupF_cons_eq _ _ _ (by rfl)]
    · by_cases he : pyContains service ("email") = true
      · rw [if_pos he]
        simp only [List.cons_append, List.nil_append]
        rw [lookupF_cons_ne _ _ _ (show ¬ ("timestamp" : String) = ("template") by decide),
            lookupF_cons_ne _ _ _ (show ¬ ("level" : String) = ("template") by decide),
            lookupF_cons_ne _ _ _ (show ¬ ("service" : String) = ("template") by decide),
            lookupF_cons_ne _ _ _ (show ¬ ("msg" : String) = ("template") by decide),
            lookupF_cons_ne _ _ _ (show ¬ ("batch_size" : String) = ("template") by decide),
            lookupF_cons_ne _ _ _ (show ¬ ("processed" : String) = ("template") by decide),
            lookupF_cons_eq _ _ _ (by rfl)]
        simp [he]
      · rw [if_neg he]
        simp only [List.nil_append]
        have hrest : lookupF ("template")
            ((if pyContains service ("notifications") = true
              then ([(("channel"), Json.str c)] : Entry) else []) ++ (t1O ++ t2O)) = none := by
          apply lookupF_none_keys
          intro kv hkv hc
          rcases List.mem_append.mp hkv with hm | hm
          · have := hNkeys kv hm
            rw [hc] at this
            exact absurd this (by decide)
          · rcases htailOpt kv hm with h | h | h <;> rw [hc] at h <;>
              exact absurd h (by decide)
        rw [lookupF_cons_ne _ _ _ (show ¬ ("timestamp" : String) = ("template") by decide),
            lookupF_cons_ne _ _ _ (show ¬ ("level" : String) = ("template") by decide),
            lookupF_cons_ne _ _ _ (show ¬ ("service" : String) = ("template") by decide),
            lookupF_cons_ne _ _ _ (show ¬ ("msg" : String) = ("template") by decide),
            lookupF_cons_ne _ _ _ (show ¬ ("batch_size" : String) = ("template") by decide),
            lookupF_cons_ne _ _ _ (show ¬ ("processed" : String) = ("template") by decide),
            hrest]
        simp [he]
    · have hEnone : lookupF ("channel")
          (if pyContains service ("email") = true
            then ([(("template"), Json.str t)] : Entry) else []) = none := by
        apply lookupF_none_keys
        intro kv hkv hc
        have := hEkeys kv hkv
        rw [hc] at this
        exact absurd this (by decide)
      by_cases hn : pyContains service ("notifications") = true
      · rw [if_pos hn]
        simp only [List.cons_append, List.nil_append]
        rw [lookupF_cons_ne _ _ _ (show ¬ ("timestamp" : String) = ("channel") by decide),
            lookupF_cons_ne _ _ _ (show ¬ ("level" : String) = ("channel") by decide),
            lookupF_cons_ne _ _ _ (show ¬ ("service" : String) = ("channel") by decide),
            lookupF_cons_ne _ _ _ (show ¬ ("msg" : String) = ("channel") by decide),
            lookupF_cons_ne _ _ _ (show ¬ ("batch_size" : String) = ("channel") by decide),
            lookupF_cons_ne _ _ _ (show ¬ ("processed" : String) = ("channel") by decide),
            lookupF_append_none _ _ _ hEnone,
            lookupF_cons_eq _ _ _ (by rfl)]
        simp [hn]
      · rw [if_neg hn]
        simp only [List.nil_append]
        rw [lookupF_cons_ne _ _ _ (show ¬ ("timestamp" : String) = ("channel") by decide),
            lookupF_cons_ne _ _ _ (show ¬ ("level" : String) = ("channel") by decide),
            lookupF_cons_ne _ _ _ (show ¬ ("service" : String) = ("channel") by decide),
            lookupF_cons_ne _ _ _ (show ¬ ("msg" : String) = ("channel") by decide),
            lookupF_cons_ne _ _ _ (show ¬ ("batch_size" : String) = ("channel") by decide),
            lookupF_cons_ne _ _ _ (show ¬ ("processed" : String) = ("channel") by decide),
            lookupF_append_none _ _ _ hEnone,
            hONone ("channel") (by decide) (by decide) (by decide)]
        simp [hn]
  · intro hdb
    obtain ⟨hapi0, hwk0⟩ := cachedb_not_api_worker service hdb
    obtain ⟨cn, qs, qd, htailD, hc1, hc2, hq1, hq2⟩ := hdbS hapi0 hwk0 hdb
    have htail1e : tail1 = ([(("connections"), Json.int cn), (("queries_per_sec"), Json.int qs)] ++
        (if level = ("warn") ∨ level = ("error") then [(("queue_depth"), Json.int qd)] else [])) :=
      hbt.symm.trans htailD
    rw [htail1e]
    simp only [List.append_assoc, List.cons_append, List.nil_append]
    refine ⟨⟨cn, ?_⟩, ⟨qs, ?_⟩, level, ?_, ?_⟩
    · rw [lookupF_cons_ne _ _ _ (show ¬ ("timestamp" : String) = ("connections") by decide),
          lookupF_cons_ne _ _ _ (show ¬ ("level" : String) = ("connections") by decide),
          lookupF_cons_ne _ _ _ (show ¬ ("service" : String) = ("connections") by decide),
          lookupF_cons_ne _ _ _ (show ¬ ("msg" : String) = ("connections") by decide),
          lookupF_cons_eq _ _ _ (by rfl)]
    · rw [lookupF_cons_ne _ _ _ (show ¬ ("timestamp" : String) = ("queries_per_sec") by decide),
          lookupF_cons_ne _ _ _ (show ¬ ("level" : String) = ("queries_per_sec") by decide),
          lookupF_cons_ne _ _ _ (show ¬ ("service" : String) = ("queries_per_sec") by decide),
          lookupF_cons_ne _ _ _ (show ¬ ("msg" : String) = ("queries_per_sec") by decide),
          lookupF_cons_ne _ _ _ (show ¬ ("connections" : String) = ("queries_per_sec") by decide),
          lookupF_cons_eq _ _ _ (by rfl)]
    · rw [lookupF_cons_ne _ _ _ (show ¬ ("timestamp" : String) = ("level") by decide),
          lookupF_cons_eq _ _ _ (by rfl)]
    · by_cases hq : level = ("warn") ∨ level = ("error")
      · rw [if_pos hq]
        simp only [List.cons_append, List.nil_append]
        rw [lookupF_cons_ne _ _ _ (show ¬ ("timestamp" : String) = ("queue_depth") by decide),
            lookupF_cons_ne _ _ _ (show ¬ ("level" : String) = ("queue_depth") by decide),
            lookupF_cons_ne _ _ _ (show ¬ ("service" : String) = ("queue_depth") by decide),
            lookupF_cons_ne _ _ _ (show ¬ ("msg" : String) = ("queue_depth") by decide),
            lookupF_cons_ne _ _ _ (show ¬ ("connections" : String) = ("queue_depth") by decide),
            lookupF_cons_ne _ _ _
              (show ¬ ("queries_per_sec" : String) = ("queue_depth") by decide),
            lookupF_cons_eq _ _ _ (by rfl)]
        constructor
        · intro _
          exact hq
        · intro _
          exact ⟨Json.int qd, rfl⟩
      · rw [if_neg hq]
        simp only [List.nil_append]
        rw [lookupF_cons_ne _ _ _ (show ¬ ("timestamp" : String) = ("queue_depth") by decide),
            lookupF_cons_ne _ _ _ (show ¬ ("level" : String) = ("queue_depth") by decide),
            lookupF_cons_ne _ _ _ (show ¬ ("service" : String) = ("queue_depth") by decide),
            lookupF_cons_ne _ _ _ (show ¬ ("msg" : String) = ("queue_depth") by decide),
            lookupF_cons_ne _ _ _ (show ¬ ("connections" : String) = ("queue_depth") by decide),
            lookupF_cons_ne _ _ _
              (show ¬ ("queries_per_sec" : String) = ("queue_depth") by decide),
            hONone ("queue_depth") (by decide) (by decide) (by decide)]
        simp [hq]

/-- Claim C6 witness: the worker-branch conclusion at the epoch timestamp and
a stream whose service draw is worker-email. -/
theorem claimC6_witness :
    (∃ b : ℤ,
      lookupF ("batch_size") (generate_log_entry startOffset workerRng).1 = some (Json.int b)) ∧
    (∃ p : ℤ,
      lookupF ("processed") (generate_log_entry startOffset workerRng).1 = some (Json.int p)) ∧
    ((∃ v, lookupF ("template") (generate_log_entry startOffset workerRng).1 = some v) ↔
      pyContains ("worker-email") ("email") = true) ∧
    ((∃ v, lookupF ("channel") (generate_log_entry startOffset workerRng).1 = some v) ↔
      pyContains ("worker-email") ("notifications") = true) :=
  (claimC6 startOffset workerRng ("worker-email") (by rfl)).1 (by decide)

end LazyTailGen
